import Mathlib

/-!
Verification development for the mailbox-export core of
`scripts/convert-sqlite-to-eml.mjs`: a shallow embedding of its pure
computation (text normalization, attachment decoding, MIME tree
serialization and the per-record orchestration loops), together with
theorems settling the specification claims.

Modelling conventions:
* JavaScript strings are Lean `String`s; the JS string methods used by the
  script (`split`, `trim`, `toLowerCase`, `startsWith`, `includes`,
  `replace`, `join`) are re-implemented below on `String.data` so that all
  definitions compute by kernel reduction.
* Node `Buffer` values are `List Nat` (byte values).
* Fallible JS code (thrown exceptions) is modelled with `Except Unit`
  (for the serializer) and `Option` (for the attachment decoder, whose
  `try/catch` returns `null` on any exception).
* `randomUUID`-based boundary synthesis is modelled by a counter threaded
  through the serializer: call number `k` yields the token
  `----=_Part_<k>`; this models the intended freshness of one random UUID
  per call.
* External collaborators that are not part of this repository
  (the `he` HTML-entity library, `new Date(...).toUTCString()`, and
  `JSON.parse` of the stored tree) are abstracted as function parameters
  bundled in `Externals`.
* The registered entries of the `attachments` object are abstracted as a
  map `String → Option Attachment`; since `attachments` is a bare object
  literal, the bracket lookup `attachments[id]` is embedded by `attLookup`,
  which also hits the inherited members of `Object.prototype` for
  unregistered identifiers such as `toString` (see `AttRef`).
-/

instance {ε α : Type} [DecidableEq ε] [DecidableEq α] : DecidableEq (Except ε α) := fun a b =>
  match a, b with
  | .ok x, .ok y => if h : x = y then .isTrue (by simp [h]) else .isFalse (by simp [h])
  | .error x, .error y => if h : x = y then .isTrue (by simp [h]) else .isFalse (by simp [h])
  | .ok _, .error _ => .isFalse (by simp)
  | .error _, .ok _ => .isFalse (by simp)

/-- The character class matched by the JS regexes `[\r\n\s]` used in the
script (JS `\s`: ASCII whitespace plus the Unicode space characters). -/
def jsWhitespace (c : Char) : Bool :=
  c = Char.ofNat 32 ∨ c = Char.ofNat 9 ∨ c = Char.ofNat 10 ∨ c = Char.ofNat 13 ∨
  c = Char.ofNat 11 ∨ c = Char.ofNat 12 ∨ c = Char.ofNat 0xA0 ∨ c = Char.ofNat 0x1680 ∨
  (0x2000 ≤ c.toNat ∧ c.toNat ≤ 0x200A) ∨ c = Char.ofNat 0x2028 ∨ c = Char.ofNat 0x2029 ∨
  c = Char.ofNat 0x202F ∨ c = Char.ofNat 0x205F ∨ c = Char.ofNat 0x3000 ∨ c = Char.ofNat 0xFEFF

/-- JS `str.replace(/[\r\n\s]+/g, '')`: remove every whitespace character. -/
def stripJsWs (s : String) : String :=
  String.mk (s.data.filter (fun c => ¬ jsWhitespace c))

/-- JS `String.prototype.trim`: drop leading and trailing whitespace. -/
def jsTrim (s : String) : String :=
  String.mk (((s.data.dropWhile jsWhitespace).reverse.dropWhile jsWhitespace).reverse)

/-- ASCII lowercasing of one character (the script only ever lowercases
ASCII header names, transfer-encoding names and MIME types). -/
def charToLower (c : Char) : Char :=
  if 65 ≤ c.toNat ∧ c.toNat ≤ 90 then Char.ofNat (c.toNat + 32) else c

/-- JS `String.prototype.toLowerCase` (on the ASCII text the script feeds it). -/
def toLowerCaseJs (s : String) : String :=
  String.mk (s.data.map charToLower)

/-- JS `String.prototype.startsWith`. -/
def startsWithJs (s pre : String) : Bool :=
  pre.data.isPrefixOf s.data

/-- Core scan of JS `String.prototype.includes`. -/
def containsChars : List Char → List Char → Bool
  | s, pat =>
    if pat.isPrefixOf s then true
    else match s with
      | [] => false
      | _ :: rest => containsChars rest pat

/-- JS `String.prototype.includes`. -/
def containsStr (s pat : String) : Bool :=
  containsChars s.data pat.data

/-- Core scan of JS `String.prototype.split` with a one-character separator. -/
def splitCh : List Char → Char → List (List Char)
  | [], _ => [[]]
  | c :: rest, sep =>
    if c = sep then [] :: splitCh rest sep
    else match splitCh rest sep with
      | h :: t => (c :: h) :: t
      | [] => [[c]]

/-- JS `String.prototype.split` with a one-character separator
(always returns at least one segment). -/
def jsSplit (s : String) (sep : Char) : List String :=
  (splitCh s.data sep).map String.mk

/-- JS `Array.prototype.join(sep)`. -/
def intercalateJs (sep : String) : List String → String
  | [] => ""
  | h :: t => t.foldl (fun acc x => acc ++ sep ++ x) h

/-- One left-to-right global-replacement pass, as JS
`str.replace(/pat/g, rep)` performs for a fixed pattern string
(fuelled recursion; the fuel is the length of the scanned text). -/
def replaceAux (pat rep : List Char) : Nat → List Char → List Char
  | _, [] => []
  | 0, s => s
  | fuel + 1, c :: rest =>
    if pat.isPrefixOf (c :: rest) then
      rep ++ replaceAux pat rep fuel (List.drop pat.length (c :: rest))
    else
      c :: replaceAux pat rep fuel rest

/-- JS `str.replace(/pat/g, rep)` for a fixed nonempty pattern string. -/
def replaceSub (s pat rep : String) : String :=
  String.mk (replaceAux pat.data rep.data s.data.length s.data)

/-- The mis-transcoded byte sequences corrected by `normalizeEncoding`,
written out by code point exactly as they appear in the source file. -/
def mojibake1 : String := String.mk [Char.ofNat 0x221A, Char.ofNat 0xA2, Char.ofNat 0xAC, Char.ofNat 0xD8]

def mojibake2 : String := String.mk [Char.ofNat 0x221A, Char.ofNat 0xA2]

def mojibake3 : String := String.mk [Char.ofNat 0x221A, Char.ofNat 0xC7]

/-- `normalizeEncoding` from the script: strips the BOM, converts
non-breaking spaces to spaces, and fixes three known mojibake sequences;
a falsy input yields the empty string. -/
def normalizeEncoding (text : String) : String :=
  if text = "" then ""
  else
    let s1 := replaceSub text (String.mk [Char.ofNat 0xFEFF]) ""
    let s2 := replaceSub s1 (String.mk [Char.ofNat 0xA0]) " "
    let s3 := replaceSub s2 mojibake1 " "
    let s4 := replaceSub s3 mojibake2 (String.mk [Char.ofNat 39])
    replaceSub s4 mojibake3 ""

/-! ## Hex layer (`decodeHex`, `Buffer.toString('hex')`) -/

/-- Recognizer for the character class `[0-9A-Fa-f]`. -/
def isHexDigitJs (c : Char) : Bool :=
  (48 ≤ c.toNat ∧ c.toNat ≤ 57) ∨ (65 ≤ c.toNat ∧ c.toNat ≤ 70) ∨ (97 ≤ c.toNat ∧ c.toNat ≤ 102)

/-- Numeric value of a hex digit character. -/
def hexVal (c : Char) : Nat :=
  if 48 ≤ c.toNat ∧ c.toNat ≤ 57 then c.toNat - 48
  else if 97 ≤ c.toNat ∧ c.toNat ≤ 102 then c.toNat - 87
  else if 65 ≤ c.toNat ∧ c.toNat ≤ 70 then c.toNat - 55
  else 0

/-- `Buffer.from(str, 'hex')`: consume hex digits two at a time; a trailing
unpaired digit is dropped, as Node does. -/
def hexPairs : List Char → List Nat
  | c1 :: c2 :: rest => (16 * hexVal c1 + hexVal c2) :: hexPairs rest
  | _ => []

/-- `decodeHex` from the script: strip all whitespace; if the remainder is a
nonempty string of hex digits, decode it to bytes, else return `null`. -/
def decodeHex (s : String) : Option (List Nat) :=
  let cleaned := stripJsWs s
  if cleaned ≠ "" ∧ cleaned.data.all isHexDigitJs then some (hexPairs cleaned.data)
  else none

/-- Lowercase hex digit for a value below 16 (`Buffer.toString('hex')`
emits lowercase). -/
def hexDigitChar (n : Nat) : Char :=
  if n < 10 then Char.ofNat (48 + n) else Char.ofNat (87 + n)

/-- `Buffer.prototype.toString('hex')`. -/
def encodeHexStr (bs : List Nat) : String :=
  String.mk (bs.flatMap (fun b => [hexDigitChar (b / 16 % 16), hexDigitChar (b % 16)]))

/-! ## UTF-8 layer (`Buffer.toString('utf-8')`, `Buffer.from(string)`) -/

/-- UTF-8 encoding of one scalar value. -/
def utf8EncodeChar (c : Char) : List Nat :=
  let n := c.toNat
  if n < 0x80 then [n]
  else if n < 0x800 then [0xC0 + n / 64, 0x80 + n % 64]
  else if n < 0x10000 then [0xE0 + n / 4096, 0x80 + n / 64 % 64, 0x80 + n % 64]
  else [0xF0 + n / 262144, 0x80 + n / 4096 % 64, 0x80 + n / 64 % 64, 0x80 + n % 64]

/-- `Buffer.from(string)` / `Buffer.from(string, 'utf-8')`: the UTF-8 bytes
of a JS string. -/
def utf8Encode (s : String) : List Nat :=
  s.data.flatMap utf8EncodeChar

/-- Is `b` a UTF-8 continuation byte? -/
def isCont (b : Nat) : Bool := 0x80 ≤ b ∧ b ≤ 0xBF

/-- Fuelled UTF-8 decoder: well-formed sequences decode to their scalar
value, malformed bytes decode to U+FFFD one byte at a time (Node
`buffer.toString('utf-8')` behaviour on the inputs this tool sees). -/
def utf8DecodeAux : Nat → List Nat → List Char
  | 0, _ => []
  | _ + 1, [] => []
  | fuel + 1, b :: rest =>
    if b < 0x80 then
      Char.ofNat b :: utf8DecodeAux fuel rest
    else if 0xC2 ≤ b ∧ b ≤ 0xDF then
      match rest with
      | b2 :: rest2 =>
        if isCont b2 then Char.ofNat ((b - 0xC0) * 64 + (b2 - 0x80)) :: utf8DecodeAux fuel rest2
        else Char.ofNat 0xFFFD :: utf8DecodeAux fuel rest
      | [] => [Char.ofNat 0xFFFD]
    else if 0xE0 ≤ b ∧ b ≤ 0xEF then
      match rest with
      | b2 :: b3 :: rest3 =>
        if isCont b2 ∧ isCont b3 ∧ (b ≠ 0xE0 ∨ 0xA0 ≤ b2) ∧ (b ≠ 0xED ∨ b2 ≤ 0x9F) then
          let n := (b - 0xE0) * 4096 + (b2 - 0x80) * 64 + (b3 - 0x80)
          (if n < 0xD800 ∨ 0xE000 ≤ n then Char.ofNat n else Char.ofNat 0xFFFD) :: utf8DecodeAux fuel rest3
        else Char.ofNat 0xFFFD :: utf8DecodeAux fuel rest
      | _ => Char.ofNat 0xFFFD :: utf8DecodeAux fuel rest.tail
    else if 0xF0 ≤ b ∧ b ≤ 0xF4 then
      match rest with
      | b2 :: b3 :: b4 :: rest4 =>
        if isCont b2 ∧ isCont b3 ∧ isCont b4 then
          let n := (b - 0xF0) * 262144 + (b2 - 0x80) * 4096 + (b3 - 0x80) * 64 + (b4 - 0x80)
          (if n < 0x110000 ∧ 0x10000 ≤ n then Char.ofNat n else Char.ofNat 0xFFFD) :: utf8DecodeAux fuel rest4
        else Char.ofNat 0xFFFD :: utf8DecodeAux fuel rest
      | _ => Char.ofNat 0xFFFD :: utf8DecodeAux fuel rest.tail
    else Char.ofNat 0xFFFD :: utf8DecodeAux fuel rest

/-- `Buffer.prototype.toString('utf-8')`. -/
def utf8DecodeStr (bs : List Nat) : String :=
  String.mk (utf8DecodeAux bs.length bs)

/-! ## Base64 layer -/

def b64Alphabet : List Char :=
  "ABCDEFGHIJKLMNOPQRSTUVWXYZabcdefghijklmnopqrstuvwxyz0123456789+/".data

/-- Character for a 6-bit group. -/
def b64Chr (n : Nat) : Char := b64Alphabet.getD n (Char.ofNat 65)

/-- `Buffer.prototype.toString('base64')`, three input bytes at a time. -/
def b64EncAux : List Nat → List Char
  | [] => []
  | [a] => [b64Chr (a / 4 % 64), b64Chr (a % 4 * 16), Char.ofNat 61, Char.ofNat 61]
  | [a, b] => [b64Chr (a / 4 % 64), b64Chr (a % 4 * 16 + b / 16 % 16), b64Chr (b % 16 * 4), Char.ofNat 61]
  | a :: b :: c :: rest =>
    b64Chr (a / 4 % 64) :: b64Chr (a % 4 * 16 + b / 16 % 16) :: b64Chr (b % 16 * 4 + c / 64 % 4) ::
      b64Chr (c % 64) :: b64EncAux rest

def base64Encode (bs : List Nat) : String :=
  String.mk (b64EncAux bs)

/-- 6-bit value of a base64 alphabet character, `none` for any other
character (Node ignores non-alphabet bytes, including `=` padding). -/
def b64Val (c : Char) : Option Nat :=
  if 65 ≤ c.toNat ∧ c.toNat ≤ 90 then some (c.toNat - 65)
  else if 97 ≤ c.toNat ∧ c.toNat ≤ 122 then some (c.toNat - 71)
  else if 48 ≤ c.toNat ∧ c.toNat ≤ 57 then some (c.toNat + 4)
  else if c.toNat = 43 then some 62
  else if c.toNat = 47 then some 63
  else none

/-- Repack 6-bit groups into bytes, dropping a trailing partial byte. -/
def packB64 : List Nat → List Nat
  | a :: b :: c :: d :: rest =>
    (a * 4 + b / 16) :: (b % 16 * 16 + c / 4) :: (c % 4 * 64 + d) :: packB64 rest
  | [a, b, c] => [a * 4 + b / 16, b % 16 * 16 + c / 4]
  | [a, b] => [a * 4 + b / 16]
  | _ => []

/-- `Buffer.from(str, 'base64')` (Node: forgiving decoder that skips
non-alphabet characters and drops trailing partial groups). -/
def base64Decode (s : String) : List Nat :=
  packB64 (s.data.filterMap b64Val)

/-- JS `str.match(/.{1,76}/g)`: `null` on the empty string, otherwise the
list of consecutive chunks of at most 76 characters. -/
def chunksAux : Nat → List Char → List (List Char)
  | 0, _ => []
  | _, [] => []
  | fuel + 1, l => l.take 76 :: chunksAux fuel (l.drop 76)

def chunk76 (s : String) : Option (List String) :=
  if s = "" then none else some ((chunksAux s.data.length s.data).map String.mk)

/-! ## Attachment decoder (`decodeContent`) and the attachment loop -/

/-- `decodeContent(body, transferEncoding, debugPrefix)` from the script.

`body` and `transferEncoding` are the raw database column values
(`none` models SQL `NULL`); the debug `fs.writeFileSync` side effects are
dropped, except that `debugFault = true` models one of them throwing
(e.g. an unwritable debug path), which the `catch` turns into `null`.
A falsy body returns `null` before the `try` block.  A body that fails
hex validation returns the raw UTF-8 bytes of the body string before the
transfer-encoding dispatch.  A `null` transfer encoding throws in
`transferEncoding.toLowerCase()`, which the `catch` also turns into
`null`. -/
def decodeContent (body : Option String) (transferEncoding : Option String)
    (debugFault : Bool) : Option (List Nat) :=
  match body with
  | none => none
  | some b =>
    if b = "" then none
    else if debugFault then none
    else
      match decodeHex b with
      | none => some (utf8Encode b)
      | some hexDecoded =>
        let hexDecodedStr := utf8DecodeStr hexDecoded
        match transferEncoding with
        | none => none
        | some te =>
          match toLowerCaseJs te with
          | "base64" => some (base64Decode (stripJsWs hexDecodedStr))
          | "7bit" => some hexDecoded
          | "8bit" => some hexDecoded
          | "binary" => some hexDecoded
          | "quoted-printable" => some (utf8Encode hexDecodedStr)
          | _ => some hexDecoded

/-- One row of the `Attachments` table. -/
structure AttRow where
  rowId : String
  attachmentId : String
  contentType : String
  transferEncoding : Option String
  hash : Option String
  size : Option Nat
  body : Option String
deriving DecidableEq

/-- A decoded attachment as stored in the in-memory `attachments` map. -/
structure Attachment where
  content : List Nat
  contentType : String
  name : String
  size : Nat
deriving DecidableEq

/-- File extension inferred from a content type
(`contentType.split(';')[0].trim().toLowerCase().split('/')[1]`, kept only
when truthy and free of `*`). -/
def extOf (contentType : String) : String :=
  if contentType = "" then ""
  else
    let mimeType := toLowerCaseJs (jsTrim ((jsSplit contentType (Char.ofNat 59)).headD ""))
    match (jsSplit mimeType (Char.ofNat 47)).get? 1 with
    | some e => if e ≠ "" ∧ ¬ containsStr e "*" then "." ++ e else ""
    | none => ""

/-- `hash || _id` with JS truthiness. -/
def hashOrId (r : AttRow) : String :=
  match r.hash with
  | some h => if h ≠ "" then h else r.rowId
  | none => r.rowId

/-- The attachment-processing loop: decode each row in order and register
the successful ones in the attachment map (later rows with the same
identifier overwrite earlier ones).  `fault` injects a debug-write
exception for the named attachment identifiers. -/
def buildAttachments (fault : String → Bool) :
    List AttRow → (String → Option Attachment) → (String → Option Attachment)
  | [], table => table
  | r :: rest, table =>
    let table' :=
      match r.body with
      | none => table
      | some b =>
        if b = "" then table
        else
          match decodeContent (some b) r.transferEncoding (fault r.attachmentId) with
          | none => table
          | some content =>
            let fileExt := extOf r.contentType
            let fileName := hashOrId r ++ "_" ++ r.attachmentId ++ fileExt
            let ct := if r.contentType ≠ "" then r.contentType else "application/octet-stream"
            fun id => if id = r.attachmentId then
                some { content := content, contentType := ct, name := fileName, size := content.length }
              else table id
    buildAttachments fault rest table'

/-! ## MIME tree data model -/

/-- The `body` field of a stored mime node: absent/falsy `null`, a JS
string, a Node `Buffer`, a JSON-revived `{type:'Buffer', data:[...]}`
object, or an object carrying a `content` string. -/
inductive Body where
  | none
  | str (s : String)
  | buf (data : List Nat)
  | objBuf (data : List Nat)
  | objContent (s : String)
deriving DecidableEq

/-- JS truthiness of a mime node body (`if (node.body)`): empty strings are
falsy, buffers and objects are always truthy. -/
def truthyBody : Body → Bool
  | .none => false
  | .str s => s ≠ ""
  | .buf _ => true
  | .objBuf _ => true
  | .objContent _ => true

/-- One node of the stored mime tree.  `header = Option.none` models a
missing or non-array `header` field; `attachmentId = Option.none` models a
missing identifier. -/
inductive Node where
  | mk (header : Option (List String)) (body : Body) (attachmentId : Option String)
      (childNodes : List Node)

def Node.header : Node → Option (List String)
  | .mk h _ _ _ => h

def Node.body : Node → Body
  | .mk _ b _ _ => b

def Node.attachmentId : Node → Option String
  | .mk _ _ a _ => a

def Node.childNodes : Node → List Node
  | .mk _ _ _ k => k

/-- JS truthiness of an optional string field. -/
def truthyOptStr : Option String → Bool
  | Option.none => false
  | some s => s ≠ ""

/-- The own property names of `Object.prototype` in Node.  `attachments`
is a bare object literal (`const attachments = {}`, line 270), so the
bracket lookup `attachments[id]` walks the prototype chain: for an
unregistered identifier naming one of these members it yields the
inherited function (or, for `__proto__`, the prototype object), which is
truthy. -/
def protoMembers : List String :=
  ["constructor", "hasOwnProperty", "isPrototypeOf", "propertyIsEnumerable",
   "toLocaleString", "toString", "valueOf", "__defineGetter__", "__defineSetter__",
   "__lookupGetter__", "__lookupSetter__", "__proto__"]

/-- Outcome of the bracket lookup `attachments[node.attachmentId]`
(line 142): a registered attachment (own property), a truthy junk value
inherited from `Object.prototype` (which has no `content` buffer), or
`undefined`. -/
inductive AttRef where
  | found (a : Attachment)
  | inherited
  | absent
deriving DecidableEq

/-- `node.attachmentId && attachments[node.attachmentId]` (line 142): the
lookup runs only when the identifier is truthy.  Registered entries are
consulted first (own properties shadow the prototype); an unregistered
identifier naming an `Object.prototype` member still makes the guard
truthy. -/
def attLookup (atts : String → Option Attachment) : Option String → AttRef
  | Option.none => AttRef.absent
  | some aid =>
    if aid = "" then AttRef.absent
    else
      match atts aid with
      | some a => AttRef.found a
      | Option.none => if protoMembers.contains aid then AttRef.inherited else AttRef.absent

/-- The root of a parsed `mimeTree` JSON value: the root node plus the
top-level metadata fields that `JSON.parse` may already carry and that the
orchestrator hydrates before serialization. -/
structure MimeTreeTop where
  root : Node
  mfrom : Option String
  mto : Option String
  date : Option String
  subject : Option String

/-- External collaborators of the serializer, abstracted as functions:
`heDecode` is `he.decode` (HTML-entity decoding), `dateFmt` is
`new Date(v).toUTCString()`, and `parseJson` is `JSON.parse` of a stored
`mimeTree` column value (returning `none` when parsing throws). -/
structure Externals where
  heDecode : String → String
  dateFmt : String → String
  parseJson : String → Option MimeTreeTop

/-- Decimal digits of a number, most significant first (fuelled). -/
def natToCharsAux : Nat → Nat → List Char
  | 0, _ => []
  | fuel + 1, n =>
    if n < 10 then [Char.ofNat (48 + n)]
    else natToCharsAux fuel (n / 10) ++ [Char.ofNat (48 + n % 10)]

def natToChars (n : Nat) : List Char := natToCharsAux (n + 1) n

/-- `generateBoundary`: call number `k` yields `----=_Part_<k>`, modelling
one fresh random UUID per call (see the header comment). -/
def gb (k : Nat) : String :=
  "----=_Part_" ++ String.mk (natToChars k)

/-- The `value.match(/boundary="?([^";\s]+)"?/i)` capture: scan for the
first position where (case-insensitively) `boundary=` is followed by an
optional quote and at least one character outside `"`, `;` and
whitespace; the capture is the maximal run of such characters. -/
def boundaryScan : List Char → Option String
  | [] => Option.none
  | c :: rest =>
    let here := c :: rest
    if "boundary=".data.isPrefixOf (here.map charToLower) then
      let after := here.drop 9
      let afterQuote := if after.headD (Char.ofNat 0) = Char.ofNat 34 then after.tail else after
      let run := afterQuote.takeWhile
        (fun ch => ¬ (ch = Char.ofNat 34 ∨ ch = Char.ofNat 59 ∨ jsWhitespace ch))
      if run ≠ [] then some (String.mk run) else boundaryScan rest
    else boundaryScan rest

def boundaryFromCT (value : String) : Option String :=
  boundaryScan value.data

/-- The header-parsing loop of `parseNode` (lines 75–95): produces the
re-emitted header lines, the list of normalized keys seen (the
`nodeHeaders` map domain), the `contentType` value and the `boundary`
captured from it. -/
def headerFoldStep (st : List String × List String × String × String) (line : String) :
    List String × List String × String × String :=
  let (headers, keys, ct, bd) := st
  let parts := jsSplit line (Char.ofNat 58)
  let key := parts.headD ""
  if key = "" then st
  else
    let value := jsTrim (intercalateJs ":" parts.tail)
    let normalizedKey := toLowerCaseJs (jsTrim key)
    let headers2 := headers ++ [jsTrim key ++ ": " ++ normalizeEncoding value]
    let keys2 := keys ++ [normalizedKey]
    if normalizedKey = "content-type" then
      (headers2, keys2, value, (boundaryFromCT value).getD bd)
    else (headers2, keys2, ct, bd)

def parseHeaderLines (lines : List String) : List String × List String × String × String :=
  lines.foldl headerFoldStep ([], [], "", "")

/-- The html `<!doctype html` body test of the content-type inference
(line 99–103): the body must be a truthy string whose trimmed,
lowercased text starts with `<!doctype html`. -/
def htmlBodyCond : Body → Bool
  | .str s => s ≠ "" ∧ startsWithJs (toLowerCaseJs (jsTrim s)) "<!doctype html"
  | _ => false

/-- Content-type inference (lines 97–110): runs only when no (nonempty)
`content-type` value was parsed. -/
def inferCT (headers : List String) (ct : String) (body : Body) : List String × String :=
  if ct = "" then
    if htmlBodyCond body then
      (headers ++ ["Content-Type: text/html; charset=UTF-8"], "text/html; charset=UTF-8")
    else if truthyBody body then
      (headers ++ ["Content-Type: text/plain; charset=UTF-8"], "text/plain; charset=UTF-8")
    else (headers, ct)
  else (headers, ct)

/-- Header building for one node (lines 69–115): parse the stored lines,
infer a content type when absent, and default the transfer encoding.
Returns `(headers, contentType, boundary)`. -/
def buildNodeHeaders (node : Node) : List String × String × String :=
  let (hs0, keys, ct0, bd) := parseHeaderLines (node.header.getD [])
  let (hs1, ct1) := inferCT hs0 ct0 node.body
  let hs2 := if keys.contains "content-transfer-encoding" then hs1
             else hs1 ++ ["Content-Transfer-Encoding: quoted-printable"]
  (hs2, ct1, bd)

/-- Body rendering for one node (lines 117–137). -/
def renderBodyContent (ext : Externals) (contentType : String) (body : Body) : String :=
  if truthyBody body then
    let bodyContent :=
      match body with
      | .str s => s
      | .buf d => utf8DecodeStr d
      | .objBuf d => utf8DecodeStr d
      | .objContent s => s
      | .none => ""
    let bodyContent :=
      if containsStr contentType "text/html" then ext.heDecode bodyContent else bodyContent
    normalizeEncoding bodyContent
  else ""

/-- The result of serializing one node: the `nodeParts` array (joined with
CRLF on return), the boundary-generator counter after the call, the list
of boundary strings used as delimiters (one entry per multipart scope, in
emission order), and the list of boundary strings synthesized by
`generateBoundary` during the call. -/
structure NodeRender where
  parts : List String
  counter : Nat
  used : List String
  gens : List String
deriving DecidableEq

/-- The attachment-insertion step of `parseNode` (lines 141–176), factored
out: given the node's reconstructed headers, resolved content type,
stored boundary, base rendering `[...headers, '', bodyContent]`, the
attachment lookup result and the boundary counter, return the extended
parts, the final boundary, the new counter, the boundaries used as
delimiters and the boundaries synthesized.  The first `generateBoundary`
call (for the dead `attachmentBoundary` variable) still consumes a fresh
token when the stored boundary is falsy. -/
def attachStepFn (headers : List String) (contentType bd0 : String) (base : List String)
    (attOpt : Option Attachment) (c0 : Nat) :
    Except Unit (List String × String × Nat × List String × List String) :=
  match attOpt with
  | Option.none => Except.ok (base, bd0, c0, [], [])
  | some att =>
    let (cA, gensA) := if bd0 ≠ "" then (c0, ([] : List String)) else (c0 + 1, [gb c0])
    let (parts1, bd1, cB, gensB) :=
      if ¬ startsWithJs contentType "multipart/" then
        let newB := gb cA
        let cteLine := (headers.find? (fun h =>
          startsWithJs (toLowerCaseJs h) "content-transfer-encoding:")).getD
          "Content-Transfer-Encoding: quoted-printable"
        (["Content-Type: multipart/mixed; boundary=\"" ++ newB ++ "\"", "",
          "--" ++ newB, "Content-Type: " ++ contentType, cteLine, ""] ++ base ++
          ["--" ++ newB], newB, cA + 1, gensA ++ [newB])
      else (base ++ ["--" ++ bd0], bd0, cA, gensA)
    match chunk76 (base64Encode att.content) with
    | Option.none => Except.error ()
    | some chunks =>
      Except.ok (parts1 ++
        ["Content-Type: " ++ att.contentType ++ "; name=\"" ++ att.name ++ "\"",
         "Content-Transfer-Encoding: base64",
         "Content-Disposition: attachment; filename=\"" ++ att.name ++ "\"",
         "", intercalateJs "\r\n" chunks, "",
         "--" ++ bd1 ++ "--\r\n"], bd1, cB, [bd1], gensB)

/-- Entry into the attachment block (lines 141–176) keyed on the bracket
lookup: a registered attachment runs the insertion step; a value
inherited from `Object.prototype` enters the block with junk whose
`content` is `undefined`, so `attachment.content.toString('base64')`
(line 170) throws a `TypeError` — the throw aborts the whole message, so
the boundary state at the throw site is unobservable; a falsy lookup
skips the block. -/
def attachStep (headers : List String) (contentType bd0 : String) (base : List String)
    (ref : AttRef) (c0 : Nat) :
    Except Unit (List String × String × Nat × List String × List String) :=
  match ref with
  | AttRef.found a => attachStepFn headers contentType bd0 base (some a) c0
  | AttRef.inherited => Except.error ()
  | AttRef.absent => attachStepFn headers contentType bd0 base Option.none c0

mutual

/-- `parseNode(node, parentContentType)` (lines 66–212).  The
`parentContentType` argument is declared but never read by the source,
and is kept for fidelity.  Returns the `nodeParts` list (the source
returns `nodeParts.join('\r\n')`; callers below join it). -/
def parseNode (ext : Externals) (atts : String → Option Attachment) :
    Node → Option String → Nat → Except Unit NodeRender
  | node@(.mk _ _ _ kids), _parentContentType, c0 =>
    let (headers, contentType, bd0) := buildNodeHeaders node
    let bodyContent := renderBodyContent ext contentType node.body
    let base := headers ++ ["", bodyContent]
    match attachStep headers contentType bd0 base (attLookup atts node.attachmentId) c0 with
    | Except.error e => Except.error e
    | Except.ok (parts1, bd1, c1, used1, gens1) =>
      if kids.isEmpty then Except.ok ⟨parts1, c1, used1, gens1⟩
      else if startsWithJs contentType "multipart/" then
        let (subB, c2, gens2) :=
          if bd1 ≠ "" then (bd1, c1, ([] : List String)) else (gb c1, c1 + 1, [gb c1])
        let parts2 :=
          if bd1 = "" then
            match parts1.findIdx? (fun p => startsWithJs p "Content-Type:") with
            | some i =>
              parts1.set i ("Content-Type: " ++ contentType ++ "; boundary=\"" ++ subB ++ "\"")
            | Option.none =>
              ("Content-Type: " ++ contentType ++ "; boundary=\"" ++ subB ++ "\"") :: parts1
          else parts1
        match renderChildren ext atts kids contentType c2 with
        | Except.error e => Except.error e
        | Except.ok (renders, c3, usedK, gensK) =>
          Except.ok ⟨parts2 ++ [""] ++ (renders.flatMap (fun r => ["--" ++ subB, r])) ++
            ["--" ++ subB ++ "--"], c3, used1 ++ [subB] ++ usedK, gens1 ++ gens2 ++ gensK⟩
      else
        match renderChildren ext atts kids contentType c1 with
        | Except.error e => Except.error e
        | Except.ok (renders, c3, usedK, gensK) =>
          Except.ok ⟨parts1 ++ renders, c3, used1 ++ usedK, gens1 ++ gensK⟩

/-- The child-rendering loops of `parseNode` (lines 199–202 and 205–207):
render each child in order, threading the boundary counter, and return the
children's joined renderings plus the accumulated used/generated
boundaries. -/
def renderChildren (ext : Externals) (atts : String → Option Attachment) :
    List Node → String → Nat → Except Unit (List String × Nat × List String × List String)
  | [], _, c => Except.ok ([], c, [], [])
  | n :: rest, pct, c =>
    match parseNode ext atts n (some pct) c with
    | Except.error e => Except.error e
    | Except.ok r =>
      match renderChildren ext atts rest pct r.counter with
      | Except.error e => Except.error e
      | Except.ok (rs, c', us, gs) =>
        Except.ok ((intercalateJs "\r\n" r.parts) :: rs, c', r.used ++ us, r.gens ++ gs)

end

/-! ## Message-level serialization and the orchestrator loops -/

/-- `reconstructHeaders(msg)` (lines 53–64): `From`, `Subject`, `To`,
`Date` when truthy, then `MIME-Version: 1.0`. -/
def reconstructHeaders (ext : Externals) (mt : MimeTreeTop) : List String :=
  (if truthyOptStr mt.mfrom then ["From: " ++ normalizeEncoding (mt.mfrom.getD "")] else []) ++
  (if truthyOptStr mt.subject then ["Subject: " ++ normalizeEncoding (mt.subject.getD "")] else []) ++
  (if truthyOptStr mt.mto then ["To: " ++ normalizeEncoding (mt.mto.getD "")] else []) ++
  (if truthyOptStr mt.date then ["Date: " ++ ext.dateFmt (mt.date.getD "")] else []) ++
  ["MIME-Version: 1.0"]

/-- The result of serializing one message: the `.eml` text plus the
boundary bookkeeping aggregated from the tree. -/
structure MsgRender where
  content : String
  used : List String
  gens : List String
deriving DecidableEq

/-- `processEmailContent(mimeTree, attachments)` (lines 48–240).  The
`mainBoundary` is generated when the closure is set up (counter value 0),
before any `parseNode` call. -/
def processEmailContentFull (ext : Externals) (atts : String → Option Attachment)
    (mt : MimeTreeTop) : Except Unit MsgRender :=
  let mainBoundary := gb 0
  let headers := reconstructHeaders ext mt
  let hasAttachments :=
    truthyOptStr mt.root.attachmentId ∨
      mt.root.childNodes.any (fun node => truthyOptStr node.attachmentId)
  match parseNode ext atts mt.root Option.none 1 with
  | Except.error e => Except.error e
  | Except.ok r =>
    let emailParts :=
      headers ++
      (if hasAttachments then
        ["Content-Type: multipart/mixed; boundary=\"" ++ mainBoundary ++ "\"", "",
         "This is a multi-part message in MIME format.", "", "--" ++ mainBoundary]
       else []) ++
      [intercalateJs "\r\n" r.parts] ++
      (if hasAttachments then ["--" ++ mainBoundary ++ "--"] else [])
    Except.ok ⟨jsTrim (intercalateJs "\r\n" emailParts) ++ "\r\n",
      (if hasAttachments then [mainBoundary] else []) ++ r.used,
      mainBoundary :: r.gens⟩

/-- The serialized message text alone. -/
def processEmailContent (ext : Externals) (atts : String → Option Attachment)
    (mt : MimeTreeTop) : Except Unit String :=
  (processEmailContentFull ext atts mt).map (fun r => r.content)

/-- One row of the `Messages` table (the columns the conversion reads). -/
structure MessageRow where
  msgId : String
  mailbox : String
  subject : String
  mimeTree : String
deriving DecidableEq

/-- Hydration of the parsed tree (lines 511–531): when the root `header`
field is an array, the stored message subject is attached and the
top-level `from`/`to`/`date` fields are set from the matching raw header
lines (last occurrence wins). -/
def hydrate (m : MessageRow) (t : MimeTreeTop) : MimeTreeTop :=
  match t.root.header with
  | Option.none => t
  | some hs =>
    hs.foldl
      (fun acc header =>
        let parts := jsSplit header (Char.ofNat 58)
        let key := parts.headD ""
        let value := jsTrim (intercalateJs ":" parts.tail)
        match jsTrim (toLowerCaseJs key) with
        | "from" => { acc with mfrom := some value }
        | "to" => { acc with mto := some value }
        | "date" => { acc with date := some value }
        | _ => acc)
      { t with subject := some m.subject }

/-- Aggregate outcome of the message loop: counts plus the list of
written `.eml` files (name, content), in processing order. -/
structure RunResult where
  processed : Nat
  errors : Nat
  outputs : List (String × String)
deriving DecidableEq

/-- The message-processing loop (lines 502–588): for each message row in
order, parse the stored tree (`JSON.parse` failure logs and continues
without touching any counter), hydrate, serialize, and write the file
when the trimmed result is nonempty; any exception thrown while
processing one message increments the error counter and the loop
continues with the next message. -/
def runMessages (ext : Externals) (atts : String → Option Attachment) :
    List MessageRow → RunResult
  | [] => ⟨0, 0, []⟩
  | m :: rest =>
    let r := runMessages ext atts rest
    match ext.parseJson m.mimeTree with
    | Option.none => r
    | some mt0 =>
      match processEmailContent ext atts (hydrate m mt0) with
      | Except.error _ => ⟨r.processed, r.errors + 1, r.outputs⟩
      | Except.ok content =>
        if jsTrim content ≠ "" then
          ⟨r.processed + 1, r.errors, (m.msgId ++ ".eml", content) :: r.outputs⟩
        else r

mutual

/-- Does some node of the tree carry a truthy `attachmentId` equal to
`aid`?  (Scope of claim C10.) -/
def refsAtt : Node → String → Bool
  | .mk _ _ a kids, aid =>
    (match a with
     | some x => decide (x = aid ∧ x ≠ "")
     | Option.none => false) || refsAttList kids aid

def refsAttList : List Node → String → Bool
  | [], _ => false
  | n :: rest, aid => refsAtt n aid || refsAttList rest aid

end

/-! ## Concrete fixtures used by witnesses and counterexamples -/

/-- A trivial simple message tree: one `text/plain` node with body
`hello`. -/
def simpleTree : MimeTreeTop :=
  ⟨.mk (some ["Content-Type: text/plain"]) (.str "hello") Option.none [],
    Option.none, Option.none, Option.none, Option.none⟩

/-- An empty in-memory attachment table. -/
def attsNone : String → Option Attachment := fun _ => Option.none

/-- The attachment row of claims C9/C10: `body` is the hex encoding of a
bare CRLF, so the base64 stage decodes to zero bytes. -/
def crlfRow : AttRow :=
  ⟨"1", "a0", "text/plain", some "base64", Option.none, some 0, some "0d0a"⟩

/-- The attachment table after processing `crlfRow` with no injected
fault: `a0` is registered with zero-length content. -/
def crlfAtts : String → Option Attachment :=
  buildAttachments (fun _ => false) [crlfRow] attsNone

/-- A message tree whose root references the zero-length attachment. -/
def emptyAttTree : MimeTreeTop :=
  ⟨.mk (some ["Content-Type: text/plain"]) (.str "hello") (some "a0") [],
    Option.none, Option.none, Option.none, Option.none⟩

/-- Concrete stand-ins for the external collaborators: entity decoding and
date formatting are taken as the identity (no entities / opaque dates are
involved in the fixtures), and `JSON.parse` succeeds on two designated
column values. -/
def sampleExt : Externals :=
  ⟨fun s => s, fun s => s,
    fun s =>
      if s = "good" then some simpleTree
      else if s = "empty-att" then some emptyAttTree
      else Option.none⟩

/-- A message row whose stored tree text is not valid JSON. -/
def msgBad : MessageRow := ⟨"m1", "mb", "s1", "not json"⟩

/-- A message row with a valid stored tree. -/
def msgGood : MessageRow := ⟨"m2", "mb", "Hi", "good"⟩

/-- A message row whose tree references the zero-length attachment. -/
def msgEmptyAtt : MessageRow := ⟨"m3", "mb", "s3", "empty-att"⟩

/-- Attachment table of the C3 fixtures: `a1` holds the two bytes `Hi`. -/
def c3Atts : String → Option Attachment :=
  fun id => if id = "a1" then some ⟨[72, 105], "text/plain", "f.txt", 2⟩ else Option.none

/-- A leaf node with a resolved attachment and non-multipart type. -/
def c3Child : Node := .mk (some ["Content-Type: text/plain"]) Body.none (some "a1") []

/-- A node with a resolved attachment, non-multipart type, and a child
that also carries a resolved attachment. -/
def c3Node : Node := .mk (some ["Content-Type: text/plain"]) Body.none (some "a1") [c3Child]

/-- Claim C1 fixture: two nested multipart nodes whose stored headers
declare the same boundary string `X`. -/
def dupGrand : Node := .mk (some ["Content-Type: text/plain"]) (.str "hi") Option.none []

def dupChild : Node :=
  .mk (some ["Content-Type: multipart/alternative; boundary=\"X\""]) Body.none Option.none [dupGrand]

def dupRoot : Node :=
  .mk (some ["Content-Type: multipart/mixed; boundary=\"X\""]) Body.none Option.none [dupChild]

def dupTree : MimeTreeTop := ⟨dupRoot, Option.none, Option.none, Option.none, Option.none⟩

/-- Claim C6 counterexample fixture: no content-type header and an
empty-string body. -/
def c6Node : Node := .mk (some ["X-Foo: bar"]) (.str "") Option.none []

/-- Does a raw header line parse (per the `parseNode` header loop) to the
normalized key `content-type`? -/
def isCtHeaderLine (line : String) : Bool :=
  let key := (jsSplit line (Char.ofNat 58)).headD ""
  key ≠ "" ∧ toLowerCaseJs (jsTrim key) = "content-type"

/-- Invariant tying a list of synthesized boundaries to the counter
interval that produced them: the list has no duplicates and every element
is `gb k` for some `k` in `[c, c2)`. -/
def GensOk (c c2 : Nat) (gens : List String) : Prop :=
  gens.Nodup ∧ ∀ b ∈ gens, ∃ k, c ≤ k ∧ k < c2 ∧ b = gb k

/-- Left inverse of `natToChars` (digit re-accumulation). -/
def charsToNat (l : List Char) : Nat :=
  l.foldl (fun acc c => acc * 10 + (c.toNat - 48)) 0

/-! ## Helper lemmas -/

theorem charsToNat_append_digit (l : List Char) (d : Char) :
    charsToNat (l ++ [d]) = 10 * charsToNat l + (d.toNat - 48) := by
  simp [charsToNat, List.foldl_append]
  ring

theorem digitChar_toNat {m : Nat} (h : m < 10) : (Char.ofNat (48 + m)).toNat = 48 + m := by
  interval_cases m <;> decide

theorem charsToNat_natToCharsAux {fuel n : Nat} (h : n < fuel) :
    charsToNat (natToCharsAux fuel n) = n := by
  induction fuel generalizing n with
  | zero => omega
  | succ fuel ih =>
    by_cases hn : n < 10
    · simp [natToCharsAux, hn, charsToNat, digitChar_toNat hn]
    · have hdiv : n / 10 < fuel := by
        have h1 : n / 10 < n := Nat.div_lt_self (by omega) (by omega)
        omega
      have hmod : n % 10 < 10 := Nat.mod_lt _ (by omega)
      simp only [natToCharsAux, if_neg hn]
      rw [charsToNat_append_digit, ih hdiv, digitChar_toNat hmod]
      omega

theorem natToChars_injective {a b : Nat} (h : natToChars a = natToChars b) : a = b := by
  have ha := charsToNat_natToCharsAux (Nat.lt_succ_self a)
  have hb := charsToNat_natToCharsAux (Nat.lt_succ_self b)
  rw [natToChars] at h
  rw [natToChars] at h
  rw [h] at ha
  rw [hb] at ha
  omega

theorem string_append_left_cancel {p a b : String} (h : p ++ a = p ++ b) : a = b := by
  have hd : p.data ++ a.data = p.data ++ b.data := by
    rw [← String.data_append, ← String.data_append, h]
  exact String.ext (List.append_cancel_left hd)

theorem gb_injective {a b : Nat} (h : gb a = gb b) : a = b := by
  rw [gb, gb] at h
  have := string_append_left_cancel h
  exact natToChars_injective (congrArg String.data this)

theorem head_append_left {p : String} (x : String) (h : p.data ≠ []) :
    (p ++ x).data.head? = p.data.head? := by
  rw [String.data_append]
  cases hp : p.data with
  | nil => exact absurd hp h
  | cons c cs => simp

theorem head_dashes (x : String) : ("--" ++ x).data.head? = some (Char.ofNat 45) := by
  rw [head_append_left x (by decide)]
  decide

theorem ne_of_head_ne {s t : String} (h : s.data.head? ≠ t.data.head?) : s ≠ t := by
  intro he
  exact h (by rw [he])

theorem ne_dashes_of_head {s : String} (h : s.data.head? ≠ some (Char.ofNat 45)) (x : String) :
    s ≠ "--" ++ x := by
  apply ne_of_head_ne
  rw [head_dashes]
  exact h

theorem dashes_ne_of_append_ne {x y : String} (h : x ≠ y) : "--" ++ x ≠ "--" ++ y := by
  intro he
  exact h (string_append_left_cancel he)

theorem open_ne_close (b : String) : "--" ++ b ≠ "--" ++ b ++ "--\r\n" := by
  intro h
  have hl := congrArg String.length h
  rw [String.length_append, String.length_append, String.length_append] at hl
  have h2 : ("--" : String).length = 2 := by decide
  have h4 : ("--\r\n" : String).length = 4 := by decide
  omega

theorem gensOk_nil {c c2 : Nat} : GensOk c c2 [] := by
  constructor
  · exact List.nodup_nil
  · intro b hb
    exact absurd hb (List.not_mem_nil b)

theorem gensOk_single {c c2 k : Nat} (h1 : c ≤ k) (h2 : k < c2) : GensOk c c2 [gb k] := by
  refine ⟨List.nodup_singleton _, ?_⟩
  intro b hb
  rw [List.mem_singleton] at hb
  exact ⟨k, h1, h2, hb⟩

theorem gensOk_mono {c c2 g} (h : GensOk c c2 g) {c' c2' : Nat} (hc : c' ≤ c) (hm : c2 ≤ c2') :
    GensOk c' c2' g := by
  obtain ⟨hn, hr⟩ := h
  refine ⟨hn, ?_⟩
  intro b hb
  obtain ⟨k, hk1, hk2, hk3⟩ := hr b hb
  exact ⟨k, by omega, by omega, hk3⟩

theorem gensOk_append {c m c2 g1 g2} (h1 : GensOk c m g1) (h2 : GensOk m c2 g2)
    (hcm : c ≤ m) (hmc : m ≤ c2) : GensOk c c2 (g1 ++ g2) := by
  obtain ⟨hn1, hr1⟩ := h1
  obtain ⟨hn2, hr2⟩ := h2
  constructor
  · rw [List.nodup_append]
    refine ⟨hn1, hn2, ?_⟩
    intro a ha hb
    obtain ⟨k1, hk1, hk2, hk3⟩ := hr1 a ha
    obtain ⟨k2, hj1, hj2, hj3⟩ := hr2 a hb
    rw [hk3] at hj3
    have := gb_injective hj3
    omega
  · intro b hb
    rw [List.mem_append] at hb
    cases hb with
    | inl h => obtain ⟨k, hk1, hk2, hk3⟩ := hr1 b h; exact ⟨k, hk1, by omega, hk3⟩
    | inr h => obtain ⟨k, hk1, hk2, hk3⟩ := hr2 b h; exact ⟨k, by omega, hk2, hk3⟩

theorem attachStep_counter_gens {headers : List String} {ct bd0 : String} {base : List String}
    {attOpt : Option Attachment} {c0 : Nat} {p : List String} {b : String} {c1 : Nat}
    {u g : List String}
    (h : attachStepFn headers ct bd0 base attOpt c0 = Except.ok (p, b, c1, u, g)) :
    c0 ≤ c1 ∧ GensOk c0 c1 g := by
  cases attOpt with
  | none =>
    simp only [attachStepFn, Except.ok.injEq, Prod.mk.injEq] at h
    obtain ⟨h1, h2, h3, h4, h5⟩ := h
    subst h3
    subst h5
    exact ⟨le_refl _, gensOk_nil⟩
  | some att =>
    simp only [attachStepFn] at h
    by_cases hbd : bd0 ≠ ""
    · simp only [if_pos hbd] at h
      by_cases hmp : ¬ startsWithJs ct "multipart/" = true
      · simp only [if_pos hmp] at h
        cases hc : chunk76 (base64Encode att.content) with
        | none => rw [hc] at h; exact absurd h (by simp)
        | some chunks =>
          rw [hc] at h
          simp only [Except.ok.injEq, Prod.mk.injEq] at h
          obtain ⟨h1, h2, h3, h4, h5⟩ := h
          subst h3
          subst h5
          exact ⟨by omega, by simpa using gensOk_single (le_refl c0) (Nat.lt_succ_self c0)⟩
      · simp only [if_neg hmp] at h
        cases hc : chunk76 (base64Encode att.content) with
        | none => rw [hc] at h; exact absurd h (by simp)
        | some chunks =>
          rw [hc] at h
          simp only [Except.ok.injEq, Prod.mk.injEq] at h
          obtain ⟨h1, h2, h3, h4, h5⟩ := h
          subst h3
          subst h5
          exact ⟨le_refl _, gensOk_nil⟩
    · simp only [if_neg hbd] at h
      by_cases hmp : ¬ startsWithJs ct "multipart/" = true
      · simp only [if_pos hmp] at h
        cases hc : chunk76 (base64Encode att.content) with
        | none => rw [hc] at h; exact absurd h (by simp)
        | some chunks =>
          rw [hc] at h
          simp only [Except.ok.injEq, Prod.mk.injEq] at h
          obtain ⟨h1, h2, h3, h4, h5⟩ := h
          subst h3
          subst h5
          refine ⟨by omega, ?_⟩
          have g1 : GensOk c0 (c0 + 1) [gb c0] := gensOk_single (le_refl _) (Nat.lt_succ_self _)
          have g2 : GensOk (c0 + 1) (c0 + 2) [gb (c0 + 1)] :=
            gensOk_single (le_refl _) (Nat.lt_succ_self _)
          simpa using gensOk_append g1 g2 (by omega) (by omega)
      · simp only [if_neg hmp] at h
        cases hc : chunk76 (base64Encode att.content) with
        | none => rw [hc] at h; exact absurd h (by simp)
        | some chunks =>
          rw [hc] at h
          simp only [Except.ok.injEq, Prod.mk.injEq] at h
          obtain ⟨h1, h2, h3, h4, h5⟩ := h
          subst h3
          subst h5
          exact ⟨by omega, by simpa using gensOk_single (le_refl c0) (Nat.lt_succ_self c0)⟩

theorem attachStep_found (headers : List String) (ct bd0 : String) (base : List String)
    (a : Attachment) (c0 : Nat) :
    attachStep headers ct bd0 base (AttRef.found a) c0 =
      attachStepFn headers ct bd0 base (some a) c0 := rfl

theorem attachStep_absent (headers : List String) (ct bd0 : String) (base : List String)
    (c0 : Nat) :
    attachStep headers ct bd0 base AttRef.absent c0 =
      attachStepFn headers ct bd0 base Option.none c0 := rfl

theorem attachStep_ref_counter_gens {headers : List String} {ct bd0 : String}
    {base : List String} {ref : AttRef} {c0 : Nat} {p : List String} {b : String} {c1 : Nat}
    {u g : List String}
    (h : attachStep headers ct bd0 base ref c0 = Except.ok (p, b, c1, u, g)) :
    c0 ≤ c1 ∧ GensOk c0 c1 g := by
  cases ref with
  | found a =>
    rw [attachStep_found] at h
    exact attachStep_counter_gens h
  | inherited => exact absurd h (by simp [attachStep])
  | absent =>
    rw [attachStep_absent] at h
    exact attachStep_counter_gens h

theorem parse_gens_all (ext : Externals) (atts : String → Option Attachment) :
    ∀ N : Nat,
      (∀ n : Node, sizeOf n ≤ N → ∀ pct c res,
        parseNode ext atts n pct c = Except.ok res →
        c ≤ res.counter ∧ GensOk c res.counter res.gens) ∧
      (∀ l : List Node, sizeOf l ≤ N → ∀ pct c out,
        renderChildren ext atts l pct c = Except.ok out →
        c ≤ out.2.1 ∧ GensOk c out.2.1 out.2.2.2) := by
  intro N
  induction N using Nat.strong_induction_on with
  | _ N IH =>
    constructor
    · rintro ⟨hd, bdy, aid, kids⟩ hn pct c res hres
      rw [parseNode] at hres
      simp only [Node.body, Node.attachmentId] at hres
      rcases hBN : buildNodeHeaders (Node.mk hd bdy aid kids) with ⟨headers, ct, bd0⟩
      rw [hBN] at hres
      have hkidsN : sizeOf kids < N := by
        have h1 : sizeOf kids < sizeOf (Node.mk hd bdy aid kids) := by
          simp [Node.mk.sizeOf_spec]
          try omega
        omega
      cases hA : attachStep headers ct bd0 (headers ++ ["", renderBodyContent ext ct bdy])
          (attLookup atts aid) c with
      | error e => rw [hA] at hres; exact absurd hres (by simp)
      | ok five =>
        obtain ⟨p1, b1, c1, u1, g1⟩ := five
        rw [hA] at hres
        dsimp only at hres
        obtain ⟨hs1, hs2⟩ := attachStep_ref_counter_gens hA
        by_cases hk : kids.isEmpty
        · rw [if_pos hk] at hres
          cases hres
          exact ⟨hs1, hs2⟩
        · rw [if_neg hk] at hres
          by_cases hmp : startsWithJs ct "multipart/" = true
          · rw [if_pos hmp] at hres
            by_cases hb1 : b1 ≠ ""
            · rw [if_pos hb1] at hres
              dsimp only at hres
              cases hR : renderChildren ext atts kids ct c1 with
              | error e => rw [hR] at hres; exact absurd hres (by simp)
              | ok four =>
                obtain ⟨renders, c3, usedK, gensK⟩ := four
                rw [hR] at hres
                dsimp only at hres
                obtain ⟨hq1, hq2⟩ :=
                  (IH (sizeOf kids) hkidsN).2 kids (le_refl _) ct c1 (renders, c3, usedK, gensK) hR
                dsimp only at hq1 hq2
                cases hres
                dsimp only
                refine ⟨by omega, ?_⟩
                have h0 : GensOk c c3 (g1 ++ gensK) := gensOk_append hs2 hq2 hs1 hq1
                simpa using h0
            · rw [if_neg hb1] at hres
              dsimp only at hres
              cases hR : renderChildren ext atts kids ct (c1 + 1) with
              | error e => rw [hR] at hres; exact absurd hres (by simp)
              | ok four =>
                obtain ⟨renders, c3, usedK, gensK⟩ := four
                rw [hR] at hres
                dsimp only at hres
                obtain ⟨hq1, hq2⟩ :=
                  (IH (sizeOf kids) hkidsN).2 kids (le_refl _) ct (c1 + 1)
                    (renders, c3, usedK, gensK) hR
                dsimp only at hq1 hq2
                cases hres
                dsimp only
                refine ⟨by omega, ?_⟩
                have hmid : GensOk c (c1 + 1) (g1 ++ [gb c1]) :=
                  gensOk_append hs2 (gensOk_single (le_refl _) (Nat.lt_succ_self _)) hs1
                    (by omega)
                exact gensOk_append hmid hq2 (by omega) hq1
          · rw [if_neg hmp] at hres
            cases hR : renderChildren ext atts kids ct c1 with
            | error e => rw [hR] at hres; exact absurd hres (by simp)
            | ok four =>
              obtain ⟨renders, c3, usedK, gensK⟩ := four
              rw [hR] at hres
              dsimp only at hres
              obtain ⟨hq1, hq2⟩ :=
                (IH (sizeOf kids) hkidsN).2 kids (le_refl _) ct c1 (renders, c3, usedK, gensK) hR
              dsimp only at hq1 hq2
              cases hres
              dsimp only
              exact ⟨by omega, gensOk_append hs2 hq2 hs1 hq1⟩
    · rintro (_ | ⟨n, rest⟩) hl pct c out hout
      · rw [renderChildren] at hout
        cases hout
        exact ⟨le_refl _, gensOk_nil⟩
      · rw [renderChildren] at hout
        have hnN : sizeOf n < N := by
          have : sizeOf n < sizeOf (n :: rest) := by
            simp [List.cons.sizeOf_spec]
            try omega
          omega
        have hrN : sizeOf rest < N := by
          have : sizeOf rest < sizeOf (n :: rest) := by
            simp [List.cons.sizeOf_spec]
            try omega
          omega
        cases hP : parseNode ext atts n (some pct) c with
        | error e => rw [hP] at hout; exact absurd hout (by simp)
        | ok r =>
          rw [hP] at hout
          dsimp only at hout
          obtain ⟨hp1, hp2⟩ := (IH (sizeOf n) hnN).1 n (le_refl _) (some pct) c r hP
          cases hR2 : renderChildren ext atts rest pct r.counter with
          | error e => rw [hR2] at hout; exact absurd hout (by simp)
          | ok four =>
            obtain ⟨rs, c2, us, gs⟩ := four
            rw [hR2] at hout
            dsimp only at hout
            obtain ⟨hq1, hq2⟩ :=
              (IH (sizeOf rest) hrN).2 rest (le_refl _) pct r.counter (rs, c2, us, gs) hR2
            dsimp only at hq1 hq2
            cases hout
            dsimp only
            exact ⟨by omega, gensOk_append hp2 hq2 hp1 hq1⟩

/-! ## Claim theorems -/

/-- C1, counterexample: boundaries taken from stored Content-Type headers
carry no uniqueness check.  In `dupTree` (nesting depth 2, two multipart
ancestors) both the root and its child declare `boundary="X"`; the
serialized message uses the boundary `X` for two distinct multipart
scopes (`used = ["X", "X"]`), so two boundaries in the output are equal,
contradicting the claim. -/
theorem c1_counterexample :
    (processEmailContentFull sampleExt attsNone dupTree).map
        (fun r => (r.used, decide r.used.Nodup, containsStr r.content "--X")) =
      Except.ok (["X", "X"], false, true) := by
  decide

/-- C1 (amended): every boundary synthesized by `generateBoundary` during
one message's serialization is distinct from every other synthesized
boundary of that message (in the counter model of the per-call fresh
UUID); boundaries taken from stored Content-Type headers have no such
guarantee. -/
theorem c1_synthesized_boundaries_distinct (ext : Externals)
    (atts : String → Option Attachment) (mt : MimeTreeTop) (r : MsgRender)
    (h : processEmailContentFull ext atts mt = Except.ok r) :
    r.gens.Nodup := by
  rw [processEmailContentFull] at h
  cases hP : parseNode ext atts mt.root Option.none 1 with
  | error e => rw [hP] at h; exact absurd h (by simp)
  | ok pr =>
    rw [hP] at h
    dsimp only at h
    cases h
    dsimp only
    obtain ⟨hp1, hp2⟩ :=
      (parse_gens_all ext atts (sizeOf mt.root)).1 mt.root (le_refl _) Option.none 1 pr hP
    refine List.nodup_cons.mpr ⟨?_, hp2.1⟩
    intro hmem
    obtain ⟨k, hk1, hk2, hk3⟩ := hp2.2 _ hmem
    have := gb_injective hk3
    omega

/-- Witness for C1 (amended) at the concrete `simpleTree`. -/
theorem c1_synthesized_boundaries_distinct_witness :
    processEmailContentFull sampleExt attsNone simpleTree =
        Except.ok ⟨"MIME-Version: 1.0\r\nContent-Type: text/plain\r\nContent-Transfer-Encoding: quoted-printable\r\n\r\nhello\r\n",
          [], ["----=_Part_0"]⟩ ∧
      (MsgRender.mk "MIME-Version: 1.0\r\nContent-Type: text/plain\r\nContent-Transfer-Encoding: quoted-printable\r\n\r\nhello\r\n"
          [] ["----=_Part_0"]).gens.Nodup :=
  ⟨by decide,
    c1_synthesized_boundaries_distinct sampleExt attsNone simpleTree _ (by decide)⟩

/-- C2, counterexample: in a run over `[msgBad, msgGood]` where `msgBad`
has syntactically invalid stored tree JSON, the invalid message produces
no output file and the following valid message is still exported, but the
error counter stays at `0` — the parse-failure `catch` just `continue`s
and never increments `errorCount`, contradicting the claim that it is
incremented. -/
theorem c2_counterexample :
    sampleExt.parseJson msgBad.mimeTree = Option.none ∧
      (runMessages sampleExt attsNone [msgBad, msgGood]).errors = 0 ∧
      (runMessages sampleExt attsNone [msgBad, msgGood]).processed = 1 ∧
      ((runMessages sampleExt attsNone [msgBad, msgGood]).outputs.map
        (fun o => o.1)) = ["m2.eml"] :=
  ⟨rfl, by decide, by decide, by decide⟩

/-- C2 (amended): a message whose stored tree JSON fails to parse produces
no output file and leaves the run state — including the error counter —
exactly as if the message were absent; every subsequent message is
processed unchanged. -/
theorem c2_invalid_json_skipped (ext : Externals) (atts : String → Option Attachment)
    (m : MessageRow) (rest : List MessageRow)
    (h : ext.parseJson m.mimeTree = Option.none) :
    runMessages ext atts (m :: rest) = runMessages ext atts rest := by
  rw [runMessages, h]

/-- Witness for C2 (amended) at the concrete `msgBad` / `msgGood` run. -/
theorem c2_invalid_json_skipped_witness :
    sampleExt.parseJson msgBad.mimeTree = Option.none ∧
      runMessages sampleExt attsNone [msgBad, msgGood] =
        runMessages sampleExt attsNone [msgGood] :=
  ⟨rfl, c2_invalid_json_skipped sampleExt attsNone msgBad [msgGood] rfl⟩

/-- C4: the attachment row whose `body` is the hex encoding of the ASCII
text `SGVsbG8=` (`"534756736247383d"`) with `transferEncoding = "base64"`
decodes in two stages (hex unwrap, then whitespace-strip and base64
decode) to exactly the bytes of `"Hello"`. -/
theorem c4_two_stage_decode_hello :
    decodeContent (some "534756736247383d") (some "base64") false =
      some [72, 101, 108, 108, 111] := by
  decide

/-- C7, counterexample: hex round-tripping does not reproduce the input
modulo whitespace normalization alone.  `"6A"` is a valid hex string but
re-encodes to lowercase `"6a"`, and the odd-length valid hex string
`"abc"` loses its final digit. -/
theorem c7_counterexample :
    decodeHex "6A" = some [106] ∧ encodeHexStr [106] ≠ stripJsWs "6A" ∧
      decodeHex "abc" = some [171] ∧ encodeHexStr [171] ≠ stripJsWs "abc" := by
  decide

/-- C9, counterexample: an exception thrown inside the decoder `try` block
(here: a debug `writeFileSync` failure, `debugFault = true`) with transfer
encoding `7bit` does NOT degrade to the raw bytes — the `catch` returns
`null`, so the attachment is skipped, exactly as for base64.  Without the
exception the same input decodes to the hex-decoded bytes `[65]`. -/
theorem c9_counterexample :
    decodeContent (some "41") (some "7bit") true = Option.none ∧
      decodeContent (some "41") (some "7bit") false = some [65] := by
  decide

/-- C9 (amended): any exception during decoding is a hard failure for
EVERY transfer encoding — the catch returns `null`, the attachment is
skipped (the table is unchanged), and the loop continues with the
remaining rows. -/
theorem c9_exception_skips_all_encodings :
    (∀ body te, decodeContent body te true = Option.none) ∧
      (∀ (fault : String → Bool) (r : AttRow) (rest : List AttRow)
        (table : String → Option Attachment),
        decodeContent r.body r.transferEncoding (fault r.attachmentId) = Option.none →
        buildAttachments fault (r :: rest) table = buildAttachments fault rest table) := by
  constructor
  · intro body te
    cases body with
    | none => rfl
    | some b =>
      rw [decodeContent]
      by_cases hb : b = ""
      · rw [if_pos hb]
      · rw [if_neg hb, if_pos rfl]
  · intro fault r rest table h
    rw [buildAttachments]
    cases hb : r.body with
    | none => rfl
    | some b =>
      rw [hb] at h
      by_cases hbe : b = ""
      · simp only [if_pos hbe]
      · simp only [if_neg hbe, h]

/-- Witness for C9 (amended): the injected fault on `crlfRow` leaves the
attachment table untouched. -/
theorem c9_exception_skips_all_encodings_witness :
    decodeContent crlfRow.body crlfRow.transferEncoding ((fun _ => true) crlfRow.attachmentId) =
        Option.none ∧
      buildAttachments (fun _ => true) [crlfRow] attsNone =
        buildAttachments (fun _ => true) [] attsNone :=
  ⟨by decide,
    c9_exception_skips_all_encodings.2 (fun _ => true) crlfRow [] attsNone (by decide)⟩

/-- C5, counterexample: the identifier `toString` is not registered in
the attachment table, yet serialization does NOT treat it as absent — the
bare-object bracket lookup hits the inherited `Object.prototype.toString`,
the guard at line 142 is truthy, and `attachment.content.toString('base64')`
(line 170) throws, so the whole message errors out; the same node with no
attachment reference renders fine. -/
theorem c5_counterexample :
    attsNone "toString" = Option.none ∧
      parseNode sampleExt attsNone
          (.mk (some ["X-Foo: y"]) (.str "b") (some "toString") []) Option.none 1 =
        Except.error () ∧
      parseNode sampleExt attsNone
          (.mk (some ["X-Foo: y"]) (.str "b") Option.none []) Option.none 1 =
        Except.ok ⟨["X-Foo: y", "Content-Type: text/plain; charset=UTF-8",
          "Content-Transfer-Encoding: quoted-printable", "", "b"], 1, [], []⟩ :=
  ⟨rfl, rfl, rfl⟩

/-- C5 (amended): a node whose attachment identifier is not registered in
the attachment table AND does not name an inherited member of
`Object.prototype` renders exactly as if it carried no attachment
reference: same headers, body and children, no attachment part, no error.
(For unregistered identifiers naming an `Object.prototype` member the
prototype-chain hit makes the guard truthy and serialization throws.) -/
theorem c5_unresolved_reference_treated_absent (ext : Externals)
    (atts : String → Option Attachment) (hd : Option (List String)) (bdy : Body)
    (aid : String) (kids : List Node) (pct : Option String) (c : Nat)
    (hmiss : atts aid = Option.none) (hproto : protoMembers.contains aid = false) :
    parseNode ext atts (.mk hd bdy (some aid) kids) pct c =
      parseNode ext atts (.mk hd bdy Option.none kids) pct c := by
  have h : attLookup atts (some aid) = AttRef.absent := by
    rw [attLookup]
    by_cases he : aid = ""
    · rw [if_pos he]
    · rw [if_neg he, hmiss]
      dsimp only
      rw [hproto]
      rfl
  rw [parseNode, parseNode]
  simp only [Node.body, Node.attachmentId]
  have hB : buildNodeHeaders (Node.mk hd bdy (some aid) kids) =
      buildNodeHeaders (Node.mk hd bdy Option.none kids) := by
    simp [buildNodeHeaders, Node.header, Node.body]
  rw [hB, h]
  rfl

/-- Witness for C5 (amended) at a concrete node with a dangling
identifier outside `Object.prototype`. -/
theorem c5_unresolved_reference_treated_absent_witness :
    attsNone "zz" = Option.none ∧ protoMembers.contains "zz" = false ∧
      parseNode sampleExt attsNone (.mk (some ["X-Foo: y"]) (.str "b") (some "zz") [])
          Option.none 1 =
        parseNode sampleExt attsNone (.mk (some ["X-Foo: y"]) (.str "b") Option.none [])
          Option.none 1 :=
  ⟨rfl, by decide,
    c5_unresolved_reference_treated_absent sampleExt attsNone (some ["X-Foo: y"]) (.str "b")
      "zz" [] Option.none 1 rfl (by decide)⟩
theorem splitCh_no_sep {l : List Char} {sep : Char} {seg : List Char}
    (h : seg ∈ splitCh l sep) : sep ∉ seg := by
  induction l generalizing seg with
  | nil =>
    rw [splitCh] at h
    simp at h
    simp [h]
  | cons c rest ih =>
    rw [splitCh] at h
    by_cases hc : c = sep
    · rw [if_pos hc] at h
      cases h with
      | head => simp
      | tail _ hm => exact ih hm
    · rw [if_neg hc] at h
      cases hs : splitCh rest sep with
      | nil =>
        rw [hs] at h
        simp at h
        subst h
        intro hm
        rw [List.mem_singleton] at hm
        exact hc hm.symm
      | cons sh st =>
        rw [hs] at h
        cases h with
        | head =>
          intro hmem
          cases hmem with
          | head => exact hc rfl
          | tail _ hm => exact ih (hs ▸ List.mem_cons_self sh st) hm
        | tail _ hm => exact ih (hs ▸ List.mem_cons_of_mem sh hm)

theorem jsTrim_data_subset {s : String} {c : Char} (h : c ∈ (jsTrim s).data) : c ∈ s.data := by
  rw [jsTrim] at h
  simp only at h
  rw [List.mem_reverse] at h
  have h1 := (List.dropWhile_sublist _).mem h
  rw [List.mem_reverse] at h1
  exact (List.dropWhile_sublist _).mem h1

theorem colon_split_unique {a : List Char} : ∀ {b x y : List Char},
    Char.ofNat 58 ∉ a → Char.ofNat 58 ∉ b →
    a ++ Char.ofNat 58 :: x = b ++ Char.ofNat 58 :: y → a = b ∧ x = y := by
  induction a with
  | nil =>
    intro b x y _ hb h
    cases b with
    | nil => simpa using h
    | cons bc bt =>
      exfalso
      simp only [List.nil_append, List.cons_append, List.cons.injEq] at h
      apply hb
      rw [← h.1]
      exact List.mem_cons_self (Char.ofNat 58) bt
  | cons ac at' ih =>
    intro b x y ha hb h
    cases b with
    | nil =>
      exfalso
      simp only [List.cons_append, List.nil_append, List.cons.injEq] at h
      apply ha
      rw [h.1]
      exact List.mem_cons_self (Char.ofNat 58) at'
    | cons bc bt =>
      simp only [List.cons_append, List.cons.injEq] at h
      obtain ⟨h1, h2⟩ := h
      have ha2 : Char.ofNat 58 ∉ at' := fun hm => ha (List.mem_cons_of_mem ac hm)
      have hb2 : Char.ofNat 58 ∉ bt := fun hm => hb (List.mem_cons_of_mem bc hm)
      have := ih ha2 hb2 h2
      exact ⟨by rw [h1, this.1], this.2⟩

theorem headerFoldStep_inv {st : List String × List String × String × String} {line : String}
    (hl : isCtHeaderLine line = false) (hct : st.2.2.1 = "")
    (hP : ∀ s ∈ st.1, ∃ k v : String,
      s = k ++ ": " ++ v ∧ toLowerCaseJs k ≠ "content-type" ∧ Char.ofNat 58 ∉ k.data) :
    (headerFoldStep st line).2.2.1 = "" ∧
      ∀ s ∈ (headerFoldStep st line).1, ∃ k v : String,
        s = k ++ ": " ++ v ∧ toLowerCaseJs k ≠ "content-type" ∧ Char.ofNat 58 ∉ k.data := by
  obtain ⟨headers, keys, ct, bd⟩ := st
  rw [headerFoldStep]
  dsimp only
  dsimp only at hct
  subst hct
  by_cases hk : (jsSplit line (Char.ofNat 58)).headD "" = ""
  · rw [if_pos hk]
    exact ⟨rfl, hP⟩
  · rw [if_neg hk]
    have hnk : toLowerCaseJs (jsTrim ((jsSplit line (Char.ofNat 58)).headD "")) ≠
        "content-type" := by
      rw [isCtHeaderLine] at hl
      simp only [Bool.decide_and, Bool.and_eq_false_iff, decide_eq_false_iff_not] at hl
      cases hl with
      | inl h => exact absurd (by simpa using h) hk
      | inr h => simpa using h
    rw [if_neg hnk]
    refine ⟨rfl, ?_⟩
    intro s hs
    rw [List.mem_append] at hs
    cases hs with
    | inl h => exact hP s h
    | inr h =>
      rw [List.mem_singleton] at h
      refine ⟨jsTrim ((jsSplit line (Char.ofNat 58)).headD ""),
        normalizeEncoding (jsTrim (intercalateJs ":" (jsSplit line (Char.ofNat 58)).tail)), ?_, hnk, ?_⟩
      · rw [h, String.append_assoc]
      · intro hmem
        have hkey := jsTrim_data_subset hmem
        have hseg : ((jsSplit line (Char.ofNat 58)).headD "").data ∈
            splitCh line.data (Char.ofNat 58) := by
          cases hsp : splitCh line.data (Char.ofNat 58) with
          | nil =>
            exfalso
            apply hk
            rw [jsSplit, hsp]
            rfl
          | cons a t =>
            rw [jsSplit, hsp]
            simp
        exact splitCh_no_sep hseg hkey

theorem parseHeaderLines_no_ct {lines : List String}
    (h : ∀ l ∈ lines, isCtHeaderLine l = false) :
    (parseHeaderLines lines).2.2.1 = "" ∧
      ∀ s ∈ (parseHeaderLines lines).1, ∃ k v : String,
        s = k ++ ": " ++ v ∧ toLowerCaseJs k ≠ "content-type" ∧ Char.ofNat 58 ∉ k.data := by
  rw [parseHeaderLines]
  have main : ∀ (ls : List String) (st : List String × List String × String × String),
      (∀ l ∈ ls, isCtHeaderLine l = false) → st.2.2.1 = "" →
      (∀ s ∈ st.1, ∃ k v : String,
        s = k ++ ": " ++ v ∧ toLowerCaseJs k ≠ "content-type" ∧ Char.ofNat 58 ∉ k.data) →
      (ls.foldl headerFoldStep st).2.2.1 = "" ∧
        ∀ s ∈ (ls.foldl headerFoldStep st).1, ∃ k v : String,
          s = k ++ ": " ++ v ∧ toLowerCaseJs k ≠ "content-type" ∧ Char.ofNat 58 ∉ k.data := by
    intro ls
    induction ls with
    | nil => intro st _ h2 h3; exact ⟨h2, h3⟩
    | cons l rest ih =>
      intro st hl h2 h3
      rw [List.foldl_cons]
      have hstep := headerFoldStep_inv (hl l (List.mem_cons_self l rest)) h2 h3
      exact ih _ (fun x hx => hl x (List.mem_cons_of_mem l hx)) hstep.1 hstep.2
  exact main lines ([], [], "", "") h rfl (by intro s hs; exact absurd hs (List.not_mem_nil s))

theorem non_ct_header_ne_inferred {s : String}
    (hs : ∃ k v : String, s = k ++ ": " ++ v ∧ toLowerCaseJs k ≠ "content-type" ∧
      Char.ofNat 58 ∉ k.data) :
    s ≠ "Content-Type: text/html; charset=UTF-8" ∧
      s ≠ "Content-Type: text/plain; charset=UTF-8" := by
  obtain ⟨k, v, he, hlow, hcol⟩ := hs
  have main : ∀ rest : String, Char.ofNat 58 ∉ ("Content-Type" : String).data →
      k ++ ": " ++ v = "Content-Type" ++ ": " ++ rest → False := by
    intro rest hcc heq
    have hd : k.data ++ Char.ofNat 58 :: (Char.ofNat 32 :: v.data) =
        ("Content-Type" : String).data ++ Char.ofNat 58 :: (Char.ofNat 32 :: rest.data) := by
      have := congrArg String.data heq
      simp only [String.data_append] at this
      simpa using this
    have := colon_split_unique hcol hcc hd
    apply hlow
    rw [String.ext this.1]
    decide
  constructor
  · intro he2
    rw [he] at he2
    exact main "text/html; charset=UTF-8" (by decide) (by rw [he2]; decide)
  · intro he2
    rw [he] at he2
    exact main "text/plain; charset=UTF-8" (by decide) (by rw [he2]; decide)

theorem truthyBody_false_htmlCond {b : Body} (h : truthyBody b = false) :
    htmlBodyCond b = false := by
  cases b with
  | str s =>
    rw [truthyBody] at h
    simp only [decide_eq_false_iff_not, not_not] at h
    rw [htmlBodyCond, h]
    simp
  | none => rfl
  | buf d => exact absurd h (by rw [truthyBody]; simp)
  | objBuf d => exact absurd h (by rw [truthyBody]; simp)
  | objContent s => exact absurd h (by rw [truthyBody]; simp)

/-- C6 (amended): for a node with no content-type header among its parsed
header lines, `text/html; charset=UTF-8` is inferred when the body is a
truthy string that (trimmed, lowercased) starts with `<!doctype html`;
otherwise `text/plain; charset=UTF-8` is inferred when the body is truthy
(a nonempty string, or any buffer/object body); when the body is falsy —
absent OR the empty string — no content-type header is added.  (The
original claim fails for the empty-string body, which is present but
falsy.) -/
theorem c6_content_type_inference (node : Node)
    (hyp : ∀ l ∈ node.header.getD [], isCtHeaderLine l = false) :
    (htmlBodyCond node.body = true →
      "Content-Type: text/html; charset=UTF-8" ∈ (buildNodeHeaders node).1) ∧
    (htmlBodyCond node.body = false → truthyBody node.body = true →
      "Content-Type: text/plain; charset=UTF-8" ∈ (buildNodeHeaders node).1) ∧
    (truthyBody node.body = false →
      "Content-Type: text/html; charset=UTF-8" ∉ (buildNodeHeaders node).1 ∧
      "Content-Type: text/plain; charset=UTF-8" ∉ (buildNodeHeaders node).1) := by
  obtain ⟨hct, hP⟩ := parseHeaderLines_no_ct hyp
  rw [buildNodeHeaders]
  rcases hE : parseHeaderLines (node.header.getD []) with ⟨hs0, keys, ct0, bd⟩
  rw [hE] at hct hP
  dsimp only at hct hP ⊢
  subst hct
  rw [inferCT, if_pos rfl]
  refine ⟨?_, ?_, ?_⟩
  · intro hh
    rw [hh, if_pos rfl]
    dsimp only
    by_cases hk : keys.contains "content-transfer-encoding"
    · rw [if_pos hk]
      simp
    · rw [if_neg hk]
      simp
  · intro hh ht
    rw [hh, ht, if_neg Bool.false_ne_true, if_pos rfl]
    dsimp only
    by_cases hk : keys.contains "content-transfer-encoding"
    · rw [if_pos hk]
      simp
    · rw [if_neg hk]
      simp
  · intro ht
    have hh := truthyBody_false_htmlCond ht
    rw [hh, ht, if_neg Bool.false_ne_true, if_neg Bool.false_ne_true]
    dsimp only
    have base : "Content-Type: text/html; charset=UTF-8" ∉ hs0 ∧
        "Content-Type: text/plain; charset=UTF-8" ∉ hs0 := by
      constructor
      · intro hm
        exact (non_ct_header_ne_inferred (hP _ hm)).1 rfl
      · intro hm
        exact (non_ct_header_ne_inferred (hP _ hm)).2 rfl
    by_cases hk : keys.contains "content-transfer-encoding"
    · rw [if_pos hk]
      exact base
    · rw [if_neg hk]
      constructor
      · intro hm
        rw [List.mem_append] at hm
        cases hm with
        | inl h => exact base.1 h
        | inr h => rw [List.mem_singleton] at h; exact absurd h (by decide)
      · intro hm
        rw [List.mem_append] at hm
        cases hm with
        | inl h => exact base.2 h
        | inr h => rw [List.mem_singleton] at h; exact absurd h (by decide)

/-- C6, counterexample: a node with a present (empty-string) body and no
content-type header gets NO inferred `Content-Type: text/plain;
charset=UTF-8` header — the empty string is falsy, so the claim's
"otherwise, if the node has a body" branch does not fire. -/
theorem c6_counterexample :
    c6Node.body = Body.str "" ∧
      (∀ l ∈ c6Node.header.getD [], isCtHeaderLine l = false) ∧
      (buildNodeHeaders c6Node).1 =
        ["X-Foo: bar", "Content-Transfer-Encoding: quoted-printable"] ∧
      "Content-Type: text/plain; charset=UTF-8" ∉ (buildNodeHeaders c6Node).1 := by
  refine ⟨rfl, by decide, by decide, by decide⟩

/-- Witness for C6 (amended) at concrete html / plain / absent bodies. -/
theorem c6_content_type_inference_witness :
    (∀ l ∈ (Node.mk (some ["X-A: b"]) (.str "<!DOCTYPE html><p>") Option.none []).header.getD [],
      isCtHeaderLine l = false) ∧
    "Content-Type: text/html; charset=UTF-8" ∈
      (buildNodeHeaders (Node.mk (some ["X-A: b"]) (.str "<!DOCTYPE html><p>") Option.none [])).1 ∧
    "Content-Type: text/plain; charset=UTF-8" ∈
      (buildNodeHeaders (Node.mk (some ["X-A: b"]) (.str "plain text") Option.none [])).1 ∧
    "Content-Type: text/plain; charset=UTF-8" ∉
      (buildNodeHeaders (Node.mk (some ["X-A: b"]) Body.none Option.none [])).1 :=
  ⟨by decide,
    (c6_content_type_inference _ (by decide)).1 (by decide),
    (c6_content_type_inference _ (by decide)).2.1 (by decide) (by decide),
    ((c6_content_type_inference _ (by decide)).2.2 (by decide)).2⟩

theorem hexVal_lt {c : Char} : hexVal c < 16 := by
  rw [hexVal]
  split
  · next h => omega
  · split
    · next h => omega
    · split
      · next h => omega
      · omega

theorem hexDigitChar_hexVal {c : Char} (h : isHexDigitJs c = true) :
    hexDigitChar (hexVal c) = charToLower c := by
  rw [isHexDigitJs] at h
  simp only [decide_eq_true_eq, Bool.decide_or, Bool.or_eq_true] at h
  have hofn := Char.ofNat_toNat c
  rcases h with h | h | h
  all_goals {
    obtain ⟨h1, h2⟩ := h
    rw [← hofn]
    interval_cases hn : c.toNat <;> decide
  }

theorem hexPairs_roundtrip : ∀ l : List Char, (∀ c ∈ l, isHexDigitJs c = true) →
    l.length % 2 = 0 →
    (hexPairs l).flatMap (fun b => [hexDigitChar (b / 16 % 16), hexDigitChar (b % 16)]) =
      l.map charToLower := by
  intro l
  induction l using hexPairs.induct with
  | case1 c1 c2 rest ih =>
    intro hhex hlen
    rw [hexPairs]
    have v1 : hexVal c1 < 16 := hexVal_lt
    have v2 : hexVal c2 < 16 := hexVal_lt
    have e1 : (16 * hexVal c1 + hexVal c2) / 16 % 16 = hexVal c1 := by omega
    have e2 : (16 * hexVal c1 + hexVal c2) % 16 = hexVal c2 := by omega
    rw [List.flatMap_cons]
    rw [e1, e2]
    rw [hexDigitChar_hexVal (hhex c1 (by simp)), hexDigitChar_hexVal (hhex c2 (by simp))]
    rw [ih (fun c hc => hhex c (by simp [hc])) (by simp at hlen ⊢; omega)]
    simp
  | case2 l hne =>
    intro hhex hlen
    cases l with
    | nil => rfl
    | cons a t =>
      cases t with
      | nil => simp at hlen
      | cons b t2 => exact absurd rfl (hne a b t2)

/-- C7 (amended): for every valid hex string whose whitespace-stripped
form has even length, re-encoding the bytes returned by `decodeHex` reproduces the
whitespace-stripped input LOWERCASED (`Buffer.toString('hex')` emits
lowercase digits; an odd-length input would additionally lose its final
digit). -/
theorem c7_hex_roundtrip (s : String) (bs : List Nat)
    (h : decodeHex s = some bs) (he : (stripJsWs s).length % 2 = 0) :
    encodeHexStr bs = toLowerCaseJs (stripJsWs s) := by
  rw [decodeHex] at h
  by_cases hc : stripJsWs s ≠ "" ∧ (stripJsWs s).data.all isHexDigitJs
  · rw [if_pos hc] at h
    injection h with h
    subst h
    rw [encodeHexStr, toLowerCaseJs]
    apply String.ext
    apply hexPairs_roundtrip
    · intro c hcm
      exact List.all_eq_true.mp hc.2 c hcm
    · exact he
  · rw [if_neg hc] at h
    exact absurd h (by simp)

/-- Witness for C7 (amended) at the concrete mixed-case input `"0d0A"`. -/
theorem c7_hex_roundtrip_witness :
    decodeHex "0d0A" = some [13, 10] ∧ (stripJsWs "0d0A").length % 2 = 0 ∧
      encodeHexStr [13, 10] = toLowerCaseJs (stripJsWs "0d0A") :=
  ⟨by decide, by decide, c7_hex_roundtrip "0d0A" [13, 10] (by decide) (by decide)⟩

theorem char_toNat_ofNat_small {n : Nat} (h : n < 0xD800) : (Char.ofNat n).toNat = n := by
  rw [Char.ofNat]
  rw [dif_pos (by rw [Nat.isValidChar]; omega)]
  rw [Char.ofNatAux, Char.toNat]
  simp [UInt32.toNat, BitVec.toNat_ofNatLt]

theorem utf8DecodeAux_ascii : ∀ (fuel : Nat) (bs : List Nat), bs.length ≤ fuel →
    (∀ b ∈ bs, b < 128) → utf8DecodeAux fuel bs = bs.map Char.ofNat := by
  intro fuel
  induction fuel with
  | zero =>
    intro bs hl _
    rw [utf8DecodeAux]
    cases bs with
    | nil => rfl
    | cons b t => simp at hl
  | succ fuel ih =>
    intro bs hl hb
    cases bs with
    | nil => rfl
    | cons b t =>
      simp only [utf8DecodeAux]
      rw [if_pos (by exact hb b (by simp))]
      rw [List.map_cons]
      rw [ih t (by simp at hl; omega) (fun x hx => hb x (by simp [hx]))]

theorem utf8Encode_ascii (bs : List Nat) (hb : ∀ b ∈ bs, b < 128) :
    utf8Encode (String.mk (bs.map Char.ofNat)) = bs := by
  rw [utf8Encode]
  induction bs with
  | nil => rfl
  | cons b t ih =>
    simp only [List.map_cons, List.flatMap_cons]
    have hbv : b < 128 := hb b (by simp)
    have ht : (Char.ofNat b).toNat = b := char_toNat_ofNat_small (by omega)
    simp only [utf8EncodeChar]
    rw [ht, if_pos (by omega)]
    rw [ih (fun x hx => hb x (by simp [hx]))]
    rfl

/-- C8: for a quoted-printable attachment (matched case-insensitively) the
final content is exactly the UTF-8 re-encoding of the UTF-8 string
decoding of the stage-1 wire bytes; in particular `=XX` escape sequences
are never interpreted: any all-ASCII wire body (which includes every
`=XX` escape) is passed through byte-for-byte. -/
theorem c8_quoted_printable_passthrough (body te : String) (wire : List Nat)
    (h : decodeHex body = some wire) (hte : toLowerCaseJs te = "quoted-printable") :
    decodeContent (some body) (some te) false =
        some (utf8Encode (utf8DecodeStr wire)) ∧
      ((∀ b ∈ wire, b < 128) → decodeContent (some body) (some te) false = some wire) := by
  have hbody : body ≠ "" := by
    intro he
    rw [he] at h
    exact Option.noConfusion (h.symm.trans (by decide : decodeHex "" = Option.none))
  have main : decodeContent (some body) (some te) false =
      some (utf8Encode (utf8DecodeStr wire)) := by
    rw [decodeContent]
    rw [if_neg hbody, if_neg Bool.false_ne_true, h]
    dsimp only
    rw [hte]
    rfl
  refine ⟨main, ?_⟩
  intro hascii
  rw [main]
  rw [utf8DecodeStr, utf8DecodeAux_ascii wire.length wire (le_refl _) hascii]
  rw [utf8Encode_ascii wire hascii]

/-- Witness for C8 at the wire text `"=41"` (hex body `"3d3431"`): the
escape comes through uninterpreted. -/
theorem c8_quoted_printable_passthrough_witness :
    decodeHex "3d3431" = some [61, 52, 49] ∧
      toLowerCaseJs "Quoted-Printable" = "quoted-printable" ∧
      decodeContent (some "3d3431") (some "Quoted-Printable") false = some [61, 52, 49] :=
  ⟨by decide, by decide,
    (c8_quoted_printable_passthrough "3d3431" "Quoted-Printable" [61, 52, 49]
      (by decide) (by decide)).2 (by decide)⟩

theorem attachStep_empty_error (headers : List String) (ct bd0 : String) (base : List String)
    (att : Attachment) (c0 : Nat) (hempty : att.content = []) :
    attachStepFn headers ct bd0 base (some att) c0 = Except.error () := by
  rw [attachStepFn, hempty]
  by_cases hbd : bd0 ≠ ""
  · rw [if_pos hbd]
    dsimp only
    by_cases hmp : ¬ startsWithJs ct "multipart/" = true
    · rw [if_pos hmp]
      rfl
    · rw [if_neg hmp]
      rfl
  · rw [if_neg hbd]
    dsimp only
    by_cases hmp : ¬ startsWithJs ct "multipart/" = true
    · rw [if_pos hmp]
      rfl
    · rw [if_neg hmp]
      rfl

theorem refsAttList_ne_nil {kids : List Node} {aid : String}
    (h : refsAttList kids aid = true) : kids.isEmpty = false := by
  cases kids with
  | nil => rw [refsAttList] at h; exact absurd h (by simp)
  | cons a t => rfl

theorem hydrate_root (m : MessageRow) (t : MimeTreeTop) : (hydrate m t).root = t.root := by
  rw [hydrate]
  cases h : t.root.header with
  | none => rfl
  | some hs =>
    have main : ∀ (ls : List String) (acc : MimeTreeTop),
        (ls.foldl (fun acc header =>
          let parts := jsSplit header (Char.ofNat 58)
          let key := parts.headD ""
          let value := jsTrim (intercalateJs ":" parts.tail)
          match jsTrim (toLowerCaseJs key) with
          | "from" => { acc with mfrom := some value }
          | "to" => { acc with mto := some value }
          | "date" => { acc with date := some value }
          | _ => acc) acc).root = acc.root := by
      intro ls
      induction ls with
      | nil => intro acc; rfl
      | cons l rest ih =>
        intro acc
        rw [List.foldl_cons]
        rw [ih]
        dsimp only
        split <;> rfl
    exact main hs _

/-- C10: an attachment registered with zero-length content makes the
serialization of every message referencing it throw — the base64 text of
empty content is the empty string, `''.match(/.{1,76}/g)` is `null`, and
the `.join` on `null` raises; the per-message catch in the orchestrator
turns this into error-counter increment, no output file, and the run
continues with the remaining messages. -/
theorem c10_empty_attachment_throws (ext : Externals) (atts : String → Option Attachment)
    (aid : String) (att : Attachment)
    (hatt : atts aid = some att) (hempty : att.content = []) (_hne : aid ≠ "") :
    (∀ (n : Node) (pct : Option String) (c : Nat),
      refsAtt n aid = true → parseNode ext atts n pct c = Except.error ()) ∧
    (∀ (m : MessageRow) (rest : List MessageRow) (mt : MimeTreeTop),
      ext.parseJson m.mimeTree = some mt → refsAtt mt.root aid = true →
      runMessages ext atts (m :: rest) =
        ⟨(runMessages ext atts rest).processed, (runMessages ext atts rest).errors + 1,
          (runMessages ext atts rest).outputs⟩) := by
  have main : ∀ N : Nat,
      (∀ n : Node, sizeOf n ≤ N → ∀ pct c, refsAtt n aid = true →
        parseNode ext atts n pct c = Except.error ()) ∧
      (∀ l : List Node, sizeOf l ≤ N → ∀ pct c, refsAttList l aid = true →
        renderChildren ext atts l pct c = Except.error ()) := by
    intro N
    induction N using Nat.strong_induction_on with
    | _ N IH =>
      constructor
      · rintro ⟨hd, bdy, a, kids⟩ hn pct c href
        simp only [refsAtt] at href
        have hkidsN : sizeOf kids < N := by
          have h1 : sizeOf kids < sizeOf (Node.mk hd bdy a kids) := by
            simp [Node.mk.sizeOf_spec]
            try omega
          omega
        have hkidpath : ∀ (headers : List String) (ct bd0 : String)
            (ref : AttRef), refsAttList kids aid = true →
            (match attachStep headers
                ct
                bd0
                (headers ++
                  ["", renderBodyContent ext ct bdy])
                ref c with
              | Except.error e => Except.error e
              | Except.ok (parts1, bd1, c1, used1, gens1) =>
                if kids.isEmpty = true then
                  Except.ok (NodeRender.mk parts1 c1 used1 gens1)
                else
                  if startsWithJs ct "multipart/" = true then
                    match (if bd1 ≠ "" then (bd1, c1, ([] : List String))
                        else (gb c1, c1 + 1, [gb c1])) with
                    | (subB, c2, gens2) =>
                      match renderChildren ext atts kids
                          ct c2 with
                      | Except.error e => Except.error e
                      | Except.ok (renders, c3, usedK, gensK) =>
                        Except.ok (NodeRender.mk
                          ((if bd1 = "" then
                              match parts1.findIdx? (fun p => startsWithJs p "Content-Type:") with
                              | some i => parts1.set i ("Content-Type: " ++
                                  ct ++
                                  "; boundary=\"" ++ subB ++ "\"")
                              | Option.none => ("Content-Type: " ++
                                  ct ++
                                  "; boundary=\"" ++ subB ++ "\"") :: parts1
                            else parts1) ++ [""] ++
                            (renders.flatMap (fun r => ["--" ++ subB, r])) ++
                            ["--" ++ subB ++ "--"])
                          c3 (used1 ++ [subB] ++ usedK) (gens1 ++ gens2 ++ gensK))
                  else
                    match renderChildren ext atts kids
                        ct c1 with
                    | Except.error e => Except.error e
                    | Except.ok (renders, c3, usedK, gensK) =>
                      Except.ok (NodeRender.mk (parts1 ++ renders) c3 (used1 ++ usedK)
                        (gens1 ++ gensK))) = Except.error () := by
          intro headers ct bd0 ref hkids
          have hQ := (IH (sizeOf kids) hkidsN).2 kids (le_refl _)
          cases hA : attachStep headers
              ct
              bd0
              (headers ++
                ["", renderBodyContent ext ct bdy])
              ref c with
          | error e => rfl
          | ok five =>
            obtain ⟨p1, b1, c1, u1, g1⟩ := five
            dsimp only
            rw [refsAttList_ne_nil hkids, if_neg Bool.false_ne_true]
            by_cases hmp : startsWithJs ct
                "multipart/" = true
            · rw [if_pos hmp]
              by_cases hb1 : b1 ≠ ""
              · rw [if_pos hb1]
                dsimp only
                rw [hQ _ c1 hkids]
              · rw [if_neg hb1]
                dsimp only
                rw [hQ _ (c1 + 1) hkids]
            · rw [if_neg hmp]
              rw [hQ _ c1 hkids]
        rcases hBN : buildNodeHeaders (Node.mk hd bdy a kids) with ⟨headers, ct, bd0⟩
        cases a with
        | none =>
          have hkids : refsAttList kids aid = true := by simpa using href
          rw [parseNode]
          simp only [Node.body, Node.attachmentId]
          rw [hBN]
          dsimp only
          exact hkidpath headers ct bd0 (attLookup atts Option.none) hkids
        | some x =>
          by_cases hoX : x = aid ∧ x ≠ ""
          · rw [parseNode]
            simp only [Node.body, Node.attachmentId]
            rw [hBN]
            dsimp only
            have hlook : attLookup atts (some x) = AttRef.found att := by
              rw [attLookup, if_neg hoX.2, hoX.1, hatt]
            rw [hlook, attachStep_found, attachStep_empty_error headers ct bd0 _ att c hempty]
          · have hkids : refsAttList kids aid = true := by
              rcases (by simpa using href : (x = aid ∧ ¬ x = "") ∨ refsAttList kids aid = true)
                with h1 | h2
              · exact absurd h1 hoX
              · exact h2
            rw [parseNode]
            simp only [Node.body, Node.attachmentId]
            rw [hBN]
            dsimp only
            exact hkidpath headers ct bd0 (attLookup atts (some x)) hkids
      · rintro (_ | ⟨n, rest⟩) hl pct c href
        · simp only [refsAttList] at href
          exact absurd href (by simp)
        · simp only [refsAttList, Bool.or_eq_true] at href
          rw [renderChildren]
          have hnN : sizeOf n < N := by
            have : sizeOf n < sizeOf (n :: rest) := by
              simp [List.cons.sizeOf_spec]
              try omega
            omega
          have hrN : sizeOf rest < N := by
            have : sizeOf rest < sizeOf (n :: rest) := by
              simp [List.cons.sizeOf_spec]
              try omega
            omega
          cases href with
          | inl h1 =>
            rw [(IH (sizeOf n) hnN).1 n (le_refl _) (some pct) c h1]
          | inr h2 =>
            cases hP : parseNode ext atts n (some pct) c with
            | error e => rfl
            | ok r =>
              dsimp only
              rw [(IH (sizeOf rest) hrN).2 rest (le_refl _) pct r.counter h2]
  refine ⟨fun n pct c href => (main (sizeOf n)).1 n (le_refl _) pct c href, ?_⟩
  intro m rest mt hpj href
  rw [runMessages, hpj]
  dsimp only
  have hroot := hydrate_root m mt
  have herr : processEmailContent ext atts (hydrate m mt) = Except.error () := by
    rw [processEmailContent, processEmailContentFull, hroot,
      (main (sizeOf mt.root)).1 mt.root (le_refl _) Option.none 1 href]
    rfl
  rw [herr]

/-- Witness for C10: the concrete run over `[msgEmptyAtt]` (whose tree
references the zero-length attachment `a0` produced from `crlfRow`) ends
with one error and no output. -/
theorem c10_empty_attachment_throws_witness :
    crlfAtts "a0" = some ⟨[], "text/plain", "1_a0.plain", 0⟩ ∧
      runMessages sampleExt crlfAtts [msgEmptyAtt] =
        ⟨(runMessages sampleExt crlfAtts []).processed,
          (runMessages sampleExt crlfAtts []).errors + 1,
          (runMessages sampleExt crlfAtts []).outputs⟩ :=
  ⟨by decide,
    (c10_empty_attachment_throws sampleExt crlfAtts "a0" ⟨[], "text/plain", "1_a0.plain", 0⟩
      (by decide) rfl (by decide)).2 msgEmptyAtt [] emptyAttTree rfl (by decide)⟩

theorem head_append_head {p x : String} {ch : Char} (h : p.data.head? = some ch) :
    (p ++ x).data.head? = some ch := by
  rw [head_append_left x ?_]
  · exact h
  · intro he
    rw [he] at h
    exact Option.noConfusion h

theorem b64Chr_ne_dash (n : Nat) : b64Chr n ≠ Char.ofNat 45 := by
  by_cases h : n < 64
  · revert h
    revert n
    decide
  · rw [b64Chr, List.getD_eq_default]
    · decide
    · have : b64Alphabet.length = 64 := by decide
      omega

theorem b64EncAux_head_ne_dash (bs : List Nat) :
    (b64EncAux bs).head? ≠ some (Char.ofNat 45) := by
  match bs with
  | [] => simp [b64EncAux]
  | [a] =>
    rw [b64EncAux]
    simp only [List.head?_cons]
    exact fun h => b64Chr_ne_dash _ (Option.some.inj h)
  | [a, b] =>
    rw [b64EncAux]
    simp only [List.head?_cons]
    exact fun h => b64Chr_ne_dash _ (Option.some.inj h)
  | a :: b :: c2 :: rest =>
    rw [b64EncAux]
    simp only [List.head?_cons]
    exact fun h => b64Chr_ne_dash _ (Option.some.inj h)

theorem intercalate_head : ∀ (t : List String) (acc : String), acc.data ≠ [] →
    (t.foldl (fun a x => a ++ "\r\n" ++ x) acc).data.head? = acc.data.head? := by
  intro t
  induction t with
  | nil => intro acc h; rfl
  | cons x xs ih =>
    intro acc h
    rw [List.foldl_cons]
    cases hh : acc.data with
    | nil => exact absurd hh h
    | cons c cs =>
      have h1 : (acc ++ "\r\n" ++ x).data.head? = some c := by
        apply head_append_head
        apply head_append_head
        rw [hh]
        rfl
      have hne2 : (acc ++ "\r\n" ++ x).data ≠ [] := by
        intro he
        rw [he] at h1
        exact Option.noConfusion h1
      rw [ih (acc ++ "\r\n" ++ x) hne2, h1]
      rfl

theorem chunk76_head {s : String} {l : List String} (h : chunk76 s = some l) :
    (intercalateJs "\r\n" l).data.head? = s.data.head? := by
  rw [chunk76] at h
  by_cases hs : s = ""
  · rw [if_pos hs] at h
    exact Option.noConfusion h
  · rw [if_neg hs] at h
    injection h with h
    subst h
    cases hd : s.data with
    | nil =>
      exfalso
      apply hs
      exact String.ext hd
    | cons c cs =>
      rw [List.length_cons]
      rw [show chunksAux (cs.length + 1) (c :: cs) =
        (c :: cs).take 76 :: chunksAux cs.length ((c :: cs).drop 76) from rfl]
      rw [List.map_cons]
      rw [show intercalateJs "\r\n" (String.mk ((c :: cs).take 76) ::
          (chunksAux cs.length ((c :: cs).drop 76)).map String.mk) =
        ((chunksAux cs.length ((c :: cs).drop 76)).map String.mk).foldl
          (fun a x => a ++ "\r\n" ++ x) (String.mk ((c :: cs).take 76)) from rfl]
      rw [intercalate_head _ _ (by simp)]
      rfl

theorem natToCharsAux_digits : ∀ (fuel n : Nat) (c : Char), c ∈ natToCharsAux fuel n →
    48 ≤ c.toNat ∧ c.toNat ≤ 57 := by
  intro fuel
  induction fuel with
  | zero => intro n c hc; rw [natToCharsAux] at hc; exact absurd hc (List.not_mem_nil c)
  | succ fuel ih =>
    intro n c hc
    rw [natToCharsAux] at hc
    by_cases hn : n < 10
    · rw [if_pos hn] at hc
      rw [List.mem_singleton] at hc
      subst hc
      rw [char_toNat_ofNat_small (by omega)]
      omega
    · rw [if_neg hn] at hc
      rw [List.mem_append] at hc
      cases hc with
      | inl h1 => exact ih _ c h1
      | inr h2 =>
        rw [List.mem_singleton] at h2
        subst h2
        rw [char_toNat_ofNat_small (by omega)]
        have := Nat.mod_lt n (show 0 < 10 from by omega)
        omega

theorem gb_ne_gb_append_dash (a b : Nat) : gb a ≠ gb b ++ "--\r\n" := by
  intro h
  rw [gb, gb, String.append_assoc] at h
  have h2 := string_append_left_cancel h
  have h3 := congrArg String.data h2
  rw [String.data_append] at h3
  have hmem : Char.ofNat 45 ∈ (String.mk (natToChars a)).data := by
    rw [h3]
    rw [List.mem_append]
    right
    decide
  have := natToCharsAux_digits _ _ _ hmem
  have h45 : (Char.ofNat 45).toNat = 45 := by decide
  omega

/-- C3 (amended): for a node with a resolved attachment, a non-multipart
resolved content type and NO child nodes, whose reconstructed header
lines and rendered body do not themselves begin with a dash (so they
cannot spoof a delimiter line), the rendered parts contain exactly one
synthesized boundary: it occurs exactly twice as the opening delimiter
`--boundary` and exactly once as the closing line `--boundary--` followed
by CRLF, and no other synthesized boundary (including the dead
`attachmentBoundary` token) appears.  (The original claim fails for nodes
that also have children, whose recursive rendering introduces further
synthesized boundaries into the same output.) -/
theorem c3_attachment_wrap_counts (ext : Externals) (atts : String → Option Attachment)
    (hd : Option (List String)) (bdy : Body) (aid : Option String)
    (att : Attachment) (pct : Option String) (c : Nat) (res : NodeRender)
    (hatt : attLookup atts aid = AttRef.found att)
    (hmp : startsWithJs (buildNodeHeaders (Node.mk hd bdy aid [])).2.1 "multipart/" = false)
    (hH : ∀ s ∈ (buildNodeHeaders (Node.mk hd bdy aid [])).1,
      s.data.head? ≠ some (Char.ofNat 45))
    (hB : (renderBodyContent ext (buildNodeHeaders (Node.mk hd bdy aid [])).2.1
      bdy).data.head? ≠ some (Char.ofNat 45))
    (hres : parseNode ext atts (Node.mk hd bdy aid []) pct c = Except.ok res) :
    ∃ b ∈ res.gens,
      res.parts.count ("--" ++ b) = 2 ∧
      res.parts.count ("--" ++ b ++ "--\r\n") = 1 ∧
      res.gens.filter (fun g => decide (("--" ++ g) ∈ res.parts) ||
        decide (("--" ++ g ++ "--\r\n") ∈ res.parts)) = [b] := by
  rw [parseNode] at hres
  simp only [Node.body, Node.attachmentId] at hres
  rcases hBN : buildNodeHeaders (Node.mk hd bdy aid []) with ⟨headers, ct, bd0⟩
  rw [hBN] at hres hmp hH hB
  dsimp only at hres hmp hH hB
  rw [hatt, attachStep_found] at hres
  simp only [attachStepFn] at hres
  have hmp2 : ¬ startsWithJs ct "multipart/" = true := by
    rw [hmp]
    exact Bool.false_ne_true
  have hcte : ((headers.find? (fun h2 =>
      startsWithJs (toLowerCaseJs h2) "content-transfer-encoding:")).getD
      "Content-Transfer-Encoding: quoted-printable").data.head? ≠ some (Char.ofNat 45) := by
    cases hf : headers.find? (fun h2 =>
        startsWithJs (toLowerCaseJs h2) "content-transfer-encoding:") with
    | none => rw [Option.getD]; decide
    | some x =>
      rw [Option.getD]
      exact hH x (List.mem_of_find?_eq_some hf)
  by_cases hbd : bd0 ≠ ""
  · rw [if_pos hbd] at hres
    dsimp only at hres
    rw [if_pos hmp2] at hres
    cases hch : chunk76 (base64Encode att.content) with
    | none => rw [hch] at hres; exact absurd hres (by simp)
    | some chunks =>
      rw [hch] at hres
      dsimp only at hres
      cases hres
      dsimp only
      have hw : (intercalateJs "\r\n" chunks).data.head? ≠ some (Char.ofNat 45) := by
        rw [chunk76_head hch]
        rw [show (base64Encode att.content).data = b64EncAux att.content from rfl]
        exact b64EncAux_head_ne_dash att.content
      have mk_ne : ∀ s : String, s.data.head? ≠ some (Char.ofNat 45) →
          ("--" ++ gb c) ≠ s ∧ ("--" ++ gb c ++ "--\r\n") ≠ s := by
        intro s hs
        constructor
        · intro he
          apply hs
          rw [← he, head_dashes]
        · intro he
          apply hs
          rw [← he]
          exact head_append_head (head_dashes (gb c))
      have mk_ne2 : ∀ (s : String) (ch : Char), s.data.head? = some ch →
          ch ≠ Char.ofNat 45 → ("--" ++ gb c) ≠ s ∧ ("--" ++ gb c ++ "--\r\n") ≠ s := by
        intro s ch h hch
        apply mk_ne
        rw [h]
        intro he
        exact hch (Option.some.inj he)
      have eEnv := mk_ne2 ("Content-Type: multipart/mixed; boundary=\"" ++ gb c ++ "\"")
        (Char.ofNat 67) (head_append_head (head_append_head
        (show ("Content-Type: multipart/mixed; boundary=\"" : String).data.head? =
          some (Char.ofNat 67) from by decide))) (by decide)
      have eEmpty := mk_ne "" (by decide)
      have eCt := mk_ne2 ("Content-Type: " ++ ct) _ (head_append_head (by decide : ("Content-Type: " : String).data.head? = some (Char.ofNat 67))) (by decide)
      have eCte := mk_ne _ hcte
      have eBody := mk_ne _ hB
      have eA1 := mk_ne2 ("Content-Type: " ++ att.contentType ++ "; name=\"" ++ att.name ++ "\"") _
        (head_append_head (head_append_head (head_append_head
          (by decide : ("Content-Type: " : String).data.head? = some (Char.ofNat 67)))))
        (by decide)
      have eA2 := mk_ne "Content-Transfer-Encoding: base64" (by decide)
      have eA3 := mk_ne2 ("Content-Disposition: attachment; filename=\"" ++ att.name ++ "\"") _
        (head_append_head (head_append_head
          (by decide : ("Content-Disposition: attachment; filename=\"" : String).data.head? =
            some (Char.ofNat 67))))
        (by decide)
      have eW := mk_ne _ hw
      have hOC : ("--" ++ gb c) ≠ ("--" ++ gb c ++ "--\r\n") := open_ne_close (gb c)
      have hCO : ("--" ++ gb c ++ "--\r\n") ≠ ("--" ++ gb c) := fun h => hOC h.symm
      have hHead0 : headers.count ("--" ++ gb c) = 0 := by
        rw [List.count_eq_zero]
        intro hm
        exact (mk_ne _ (hH _ hm)).1 rfl
      have hHead0c : headers.count ("--" ++ gb c ++ "--\r\n") = 0 := by
        rw [List.count_eq_zero]
        intro hm
        exact (mk_ne _ (hH _ hm)).2 rfl
      refine ⟨gb c, by simp, ?_, ?_, ?_⟩
      · simp only [List.count_append, List.count_cons, List.count_nil, hHead0]
        simp [eEnv.1, eEnv.1.symm, eEmpty.1, eEmpty.1.symm, eCt.1, eCt.1.symm,
          eCte.1, eCte.1.symm, eBody.1, eBody.1.symm, eA1.1, eA1.1.symm,
          eA2.1, eA2.1.symm, eA3.1, eA3.1.symm, eW.1, eW.1.symm, hOC, hCO]
      · simp only [List.count_append, List.count_cons, List.count_nil, hHead0c]
        simp [eEnv.2, eEnv.2.symm, eEmpty.2, eEmpty.2.symm, eCt.2, eCt.2.symm,
          eCte.2, eCte.2.symm, eBody.2, eBody.2.symm, eA1.2, eA1.2.symm,
          eA2.2, eA2.2.symm, eA3.2, eA3.2.symm, eW.2, eW.2.symm, hOC, hCO]
      · simp only [List.nil_append, List.filter]
        have hmem : ("--" ++ gb c) ∈
            ["Content-Type: multipart/mixed; boundary=\"" ++ gb c ++ "\"", "",
              "--" ++ gb c, "Content-Type: " ++ ct,
              (headers.find? (fun h2 =>
                startsWithJs (toLowerCaseJs h2) "content-transfer-encoding:")).getD
                "Content-Transfer-Encoding: quoted-printable", ""] ++
              (headers ++ ["", renderBodyContent ext ct bdy]) ++ ["--" ++ gb c] ++
              ["Content-Type: " ++ att.contentType ++ "; name=\"" ++ att.name ++ "\"",
               "Content-Transfer-Encoding: base64",
               "Content-Disposition: attachment; filename=\"" ++ att.name ++ "\"",
               "", intercalateJs "\r\n" chunks, "",
               "--" ++ gb c ++ "--\r\n"] := by
          simp
        simp [hmem]
  · rw [if_neg hbd] at hres
    dsimp only at hres
    rw [if_pos hmp2] at hres
    cases hch : chunk76 (base64Encode att.content) with
    | none => rw [hch] at hres; exact absurd hres (by simp)
    | some chunks =>
      rw [hch] at hres
      dsimp only at hres
      cases hres
      dsimp only
      have hw : (intercalateJs "\r\n" chunks).data.head? ≠ some (Char.ofNat 45) := by
        rw [chunk76_head hch]
        rw [show (base64Encode att.content).data = b64EncAux att.content from rfl]
        exact b64EncAux_head_ne_dash att.content
      have mk_ne : ∀ (b s : String), s.data.head? ≠ some (Char.ofNat 45) →
          ("--" ++ b) ≠ s ∧ ("--" ++ b ++ "--\r\n") ≠ s := by
        intro b s hs
        constructor
        · intro he
          apply hs
          rw [← he, head_dashes]
        · intro he
          apply hs
          rw [← he]
          exact head_append_head (head_dashes b)
      have mk_ne2 : ∀ (b s : String) (ch : Char), s.data.head? = some ch →
          ch ≠ Char.ofNat 45 → ("--" ++ b) ≠ s ∧ ("--" ++ b ++ "--\r\n") ≠ s := by
        intro b s ch h hch
        apply mk_ne
        rw [h]
        intro he
        exact hch (Option.some.inj he)
      have hgnn : gb c ≠ gb (c + 1) := fun h => by
        have := gb_injective h
        omega
      have hgnn2 : gb (c + 1) ≠ gb c := fun h => hgnn h.symm
      have allNe : ∀ b : String,
          ("--" ++ b) ≠ ("Content-Type: multipart/mixed; boundary=\"" ++ gb (c + 1) ++ "\"") ∧
          ("--" ++ b ++ "--\r\n") ≠
            ("Content-Type: multipart/mixed; boundary=\"" ++ gb (c + 1) ++ "\"") := by
        intro b
        exact mk_ne2 b _ (Char.ofNat 67) (head_append_head (head_append_head
          (show ("Content-Type: multipart/mixed; boundary=\"" : String).data.head? =
            some (Char.ofNat 67) from by decide))) (by decide)
      have eEnvL := allNe (gb (c + 1))
      have eEnvD := allNe (gb c)
      have eEmptyL := mk_ne (gb (c + 1)) "" (by decide)
      have eEmptyD := mk_ne (gb c) "" (by decide)
      have hCtHead : ("Content-Type: " ++ ct).data.head? = some (Char.ofNat 67) :=
        head_append_head (by decide)
      have eCtL := mk_ne2 (gb (c + 1)) _ _ hCtHead (by decide)
      have eCtD := mk_ne2 (gb c) _ _ hCtHead (by decide)
      have eCteL := mk_ne (gb (c + 1)) _ hcte
      have eCteD := mk_ne (gb c) _ hcte
      have eBodyL := mk_ne (gb (c + 1)) _ hB
      have eBodyD := mk_ne (gb c) _ hB
      have hA1Head : ("Content-Type: " ++ att.contentType ++ "; name=\"" ++ att.name ++
          "\"").data.head? = some (Char.ofNat 67) :=
        head_append_head (head_append_head (head_append_head (by decide :
          ("Content-Type: " : String).data.head? = some (Char.ofNat 67))))
      have eA1L := mk_ne2 (gb (c + 1)) _ _ hA1Head (by decide)
      have eA1D := mk_ne2 (gb c) _ _ hA1Head (by decide)
      have eA2L := mk_ne (gb (c + 1)) "Content-Transfer-Encoding: base64" (by decide)
      have eA2D := mk_ne (gb c) "Content-Transfer-Encoding: base64" (by decide)
      have hA3Head : ("Content-Disposition: attachment; filename=\"" ++ att.name ++
          "\"").data.head? = some (Char.ofNat 67) :=
        head_append_head (head_append_head (by decide :
          ("Content-Disposition: attachment; filename=\"" : String).data.head? =
            some (Char.ofNat 67)))
      have eA3L := mk_ne2 (gb (c + 1)) _ _ hA3Head (by decide)
      have eA3D := mk_ne2 (gb c) _ _ hA3Head (by decide)
      have eWL := mk_ne (gb (c + 1)) _ hw
      have eWD := mk_ne (gb c) _ hw
      have hOC : ("--" ++ gb (c + 1)) ≠ ("--" ++ gb (c + 1) ++ "--\r\n") :=
        open_ne_close (gb (c + 1))
      have hCO : ("--" ++ gb (c + 1) ++ "--\r\n") ≠ ("--" ++ gb (c + 1)) := fun h => hOC h.symm
      have hDO : ("--" ++ gb c) ≠ ("--" ++ gb (c + 1)) := dashes_ne_of_append_ne hgnn
      have hDO2 : ("--" ++ gb (c + 1)) ≠ ("--" ++ gb c) := fun h => hDO h.symm
      have hDC : ("--" ++ gb c) ≠ ("--" ++ gb (c + 1) ++ "--\r\n") := by
        intro h
        rw [String.append_assoc] at h
        exact gb_ne_gb_append_dash c (c + 1) (string_append_left_cancel h)
      have hCD : ("--" ++ gb c ++ "--\r\n") ≠ ("--" ++ gb (c + 1)) := by
        intro h
        rw [String.append_assoc] at h
        exact gb_ne_gb_append_dash (c + 1) c (string_append_left_cancel h.symm)
      have hCC : ("--" ++ gb c ++ "--\r\n") ≠ ("--" ++ gb (c + 1) ++ "--\r\n") := by
        intro h
        have h3 : gb c ++ "--\r\n" = gb (c + 1) ++ "--\r\n" := by
          rw [String.append_assoc, String.append_assoc] at h
          exact string_append_left_cancel h
        have h4 := congrArg String.data h3
        rw [String.data_append, String.data_append] at h4
        have h5 := List.append_inj_left h4 (by
          have := congrArg List.length h4
          simp only [List.length_append] at this
          omega)
        exact hgnn (String.ext h5)
      have hCC2 : ("--" ++ gb (c + 1) ++ "--\r\n") ≠ ("--" ++ gb c ++ "--\r\n") :=
        fun h => hCC h.symm
      have hHead0 : headers.count ("--" ++ gb (c + 1)) = 0 := by
        rw [List.count_eq_zero]
        intro hm
        exact (mk_ne _ _ (hH _ hm)).1 rfl
      have hHead0c : headers.count ("--" ++ gb (c + 1) ++ "--\r\n") = 0 := by
        rw [List.count_eq_zero]
        intro hm
        exact (mk_ne _ _ (hH _ hm)).2 rfl
      have hHeadD : ("--" ++ gb c) ∉ headers := by
        intro hm
        exact (mk_ne _ _ (hH _ hm)).1 rfl
      have hHeadDc : ("--" ++ gb c ++ "--\r\n") ∉ headers := by
        intro hm
        exact (mk_ne _ _ (hH _ hm)).2 rfl
      refine ⟨gb (c + 1), by simp, ?_, ?_, ?_⟩
      · simp only [List.count_append, List.count_cons, List.count_nil, hHead0]
        simp [eEnvL.1, eEnvL.1.symm, eEmptyL.1, eEmptyL.1.symm, eCtL.1, eCtL.1.symm,
          eCteL.1, eCteL.1.symm, eBodyL.1, eBodyL.1.symm, eA1L.1, eA1L.1.symm,
          eA2L.1, eA2L.1.symm, eA3L.1, eA3L.1.symm, eWL.1, eWL.1.symm, hOC, hCO]
      · simp only [List.count_append, List.count_cons, List.count_nil, hHead0c]
        simp [eEnvL.2, eEnvL.2.symm, eEmptyL.2, eEmptyL.2.symm, eCtL.2, eCtL.2.symm,
          eCteL.2, eCteL.2.symm, eBodyL.2, eBodyL.2.symm, eA1L.2, eA1L.2.symm,
          eA2L.2, eA2L.2.symm, eA3L.2, eA3L.2.symm, eWL.2, eWL.2.symm, hOC, hCO]
      · have hmem : ("--" ++ gb (c + 1)) ∈
            ["Content-Type: multipart/mixed; boundary=\"" ++ gb (c + 1) ++ "\"", "",
              "--" ++ gb (c + 1), "Content-Type: " ++ ct,
              (headers.find? (fun h2 =>
                startsWithJs (toLowerCaseJs h2) "content-transfer-encoding:")).getD
                "Content-Transfer-Encoding: quoted-printable", ""] ++
              (headers ++ ["", renderBodyContent ext ct bdy]) ++ ["--" ++ gb (c + 1)] ++
              ["Content-Type: " ++ att.contentType ++ "; name=\"" ++ att.name ++ "\"",
               "Content-Transfer-Encoding: base64",
               "Content-Disposition: attachment; filename=\"" ++ att.name ++ "\"",
               "", intercalateJs "\r\n" chunks, "",
               "--" ++ gb (c + 1) ++ "--\r\n"] := by
          simp
        simp [List.filter_cons, hmem, eEnvD.1, eEnvD.2, eEmptyD.1, eEmptyD.2, hDO, hCD,
          eCtD.1, eCtD.2, eCteD.1, eCteD.2, hHeadD, hHeadDc, eBodyD.1, eBodyD.2,
          eA1D.1, eA1D.2, eA2D.1, eA2D.2, eA3D.1, eA3D.2, eWD.1, eWD.2, hDC, hCC]

set_option maxRecDepth 10000 in
/-- C3, counterexample: `c3Node` has a resolved attachment and a
non-multipart content type, but also a child that itself carries a
resolved attachment; its serialized output contains two distinct
synthesized boundaries, contradicting "exactly one synthesized boundary
string". -/
theorem c3_counterexample :
    attLookup c3Atts c3Node.attachmentId =
        AttRef.found ⟨[72, 105], "text/plain", "f.txt", 2⟩ ∧
      startsWithJs (buildNodeHeaders c3Node).2.1 "multipart/" = false ∧
      c3Node.childNodes.length = 1 ∧
      (parseNode sampleExt c3Atts c3Node Option.none 1).map
        (fun r => (r.gens.filter (fun g =>
          containsStr (intercalateJs "\r\n" r.parts) g)).length) = Except.ok 2 := by
  refine ⟨by decide, by decide, by decide, by decide⟩

set_option maxRecDepth 10000 in
/-- Witness for C3 (amended) at the concrete childless node `c3Child`. -/
theorem c3_attachment_wrap_counts_witness :
    parseNode sampleExt c3Atts c3Child Option.none 1 = Except.ok
        ⟨["Content-Type: multipart/mixed; boundary=\"----=_Part_2\"", "",
          "------=_Part_2", "Content-Type: text/plain",
          "Content-Transfer-Encoding: quoted-printable", "", "Content-Type: text/plain",
          "Content-Transfer-Encoding: quoted-printable", "", "", "------=_Part_2",
          "Content-Type: text/plain; name=\"f.txt\"", "Content-Transfer-Encoding: base64",
          "Content-Disposition: attachment; filename=\"f.txt\"", "", "SGk=", "",
          "------=_Part_2--\r\n"], 3, ["----=_Part_2"],
          ["----=_Part_1", "----=_Part_2"]⟩ ∧
      (∃ b ∈ (["----=_Part_1", "----=_Part_2"] : List String),
        (["Content-Type: multipart/mixed; boundary=\"----=_Part_2\"", "",
          "------=_Part_2", "Content-Type: text/plain",
          "Content-Transfer-Encoding: quoted-printable", "", "Content-Type: text/plain",
          "Content-Transfer-Encoding: quoted-printable", "", "", "------=_Part_2",
          "Content-Type: text/plain; name=\"f.txt\"", "Content-Transfer-Encoding: base64",
          "Content-Disposition: attachment; filename=\"f.txt\"", "", "SGk=", "",
          "------=_Part_2--\r\n"] : List String).count ("--" ++ b) = 2 ∧
        (["Content-Type: multipart/mixed; boundary=\"----=_Part_2\"", "",
          "------=_Part_2", "Content-Type: text/plain",
          "Content-Transfer-Encoding: quoted-printable", "", "Content-Type: text/plain",
          "Content-Transfer-Encoding: quoted-printable", "", "", "------=_Part_2",
          "Content-Type: text/plain; name=\"f.txt\"", "Content-Transfer-Encoding: base64",
          "Content-Disposition: attachment; filename=\"f.txt\"", "", "SGk=", "",
          "------=_Part_2--\r\n"] : List String).count ("--" ++ b ++ "--\r\n") = 1 ∧
        (["----=_Part_1", "----=_Part_2"] : List String).filter (fun g =>
          decide (("--" ++ g) ∈
            (["Content-Type: multipart/mixed; boundary=\"----=_Part_2\"", "",
              "------=_Part_2", "Content-Type: text/plain",
              "Content-Transfer-Encoding: quoted-printable", "", "Content-Type: text/plain",
              "Content-Transfer-Encoding: quoted-printable", "", "", "------=_Part_2",
              "Content-Type: text/plain; name=\"f.txt\"", "Content-Transfer-Encoding: base64",
              "Content-Disposition: attachment; filename=\"f.txt\"", "", "SGk=", "",
              "------=_Part_2--\r\n"] : List String)) ||
          decide (("--" ++ g ++ "--\r\n") ∈
            (["Content-Type: multipart/mixed; boundary=\"----=_Part_2\"", "",
              "------=_Part_2", "Content-Type: text/plain",
              "Content-Transfer-Encoding: quoted-printable", "", "Content-Type: text/plain",
              "Content-Transfer-Encoding: quoted-printable", "", "", "------=_Part_2",
              "Content-Type: text/plain; name=\"f.txt\"", "Content-Transfer-Encoding: base64",
              "Content-Disposition: attachment; filename=\"f.txt\"", "", "SGk=", "",
              "------=_Part_2--\r\n"] : List String))) = [b]) :=
  ⟨by decide,
    c3_attachment_wrap_counts sampleExt c3Atts (some ["Content-Type: text/plain"]) Body.none
      (some "a1") ⟨[72, 105], "text/plain", "f.txt", 2⟩ Option.none 1
      ⟨["Content-Type: multipart/mixed; boundary=\"----=_Part_2\"", "",
        "------=_Part_2", "Content-Type: text/plain",
        "Content-Transfer-Encoding: quoted-printable", "", "Content-Type: text/plain",
        "Content-Transfer-Encoding: quoted-printable", "", "", "------=_Part_2",
        "Content-Type: text/plain; name=\"f.txt\"", "Content-Transfer-Encoding: base64",
        "Content-Disposition: attachment; filename=\"f.txt\"", "", "SGk=", "",
        "------=_Part_2--\r\n"], 3, ["----=_Part_2"], ["----=_Part_1", "----=_Part_2"]⟩
      (by decide) (by decide) (by decide) (by decide) (by decide)⟩
